import Mathlib

/-!
anytopdf-backend: the conversion routes of `server.js`

A shallow embedding of the route handlers of `server.js`.

* JavaScript strings are lists of characters (`Str`).
* The filesystem is explicit state: the list of paths that exist (`FS`).
* A child process started with `exec` is a parameter of each handler: a function from the
  command line and the filesystem to the callback arguments `(error, stdout, stderr)` and the
  filesystem the process leaves behind.
* `Date.now()` readings are parameters.
* `parseInt` of a run of decimal digits is the nearest double (`Num`), and the comparator
  subtracts doubles. Physical sizes (`pixels / 150`) are rationals.
* The functions of Node's `path` module are given in their POSIX form, the form a host other
  than win32 uses.
-/

namespace Server

/-- JavaScript string. -/
abbrev Str := List Char

/-! ## String primitives -/

/-- The method `s.startsWith(p)`. -/
def startsWith (s p : Str) : Bool := p.isPrefixOf s

/-- The method `s.endsWith(p)`. -/
def endsWith (s p : Str) : Bool := p.isSuffixOf s

/-- The method `s.includes(p)`: `p` occurs in `s` at some position. -/
def includes (s p : Str) : Bool := s.tails.any (fun t => p.isPrefixOf t)

/-- The call `s.replace(/"/g, '\\"')`: every double quote gets a backslash in front. -/
def escapeQuotes : Str → Str
  | [] => []
  | c :: cs => if c = '"' then '\\' :: '"' :: escapeQuotes cs else c :: escapeQuotes cs

/-- The call `s.replace(/\\/g, '/')`: every backslash becomes a slash. -/
def backslashesToSlashes (s : Str) : Str := s.map (fun c => if c = '\\' then '/' else c)

/-- Template-literal rendering of a non-negative integer such as `Date.now()`. -/
def numStr (n : Nat) : Str := Nat.toDigits 10 n

/-- What a JavaScript statement can throw in the handlers. -/
inductive Thrown
  | typeError
  | error (message : Str)
  | enoent (path : Str)
  | nameTooLong (path : Str)
  deriving DecidableEq, Repr

/-! ## The slide-image comparator of `/pdf-to-pptx` -/

/-- The regular expression `-(\d+)\.jpg$` tried at the start of `t`: a dash, the longest run
of decimal digits (at least one), then `.jpg` and the end of the string. Returns group 1. -/
def matchPageAt (t : Str) : Option Str :=
  match t with
  | '-' :: r =>
    let ds := r.takeWhile Char.isDigit
    if ds ≠ [] ∧ r.dropWhile Char.isDigit = ".jpg".toList then some ds else none
  | _ => none

/-- The call `s.match(re)` for the expression above: the leftmost position at which it
matches; `none` is JavaScript's `null`. The value is capture group 1. -/
def matchPage (s : Str) : Option Str := s.tails.findSome? matchPageAt

/-- A JavaScript number, as far as the comparator meets them: an integer-valued double, an
infinity, or `NaN`. -/
inductive Num
  | finite (v : Int)
  | posInf
  | negInf
  | nan
  deriving DecidableEq, Repr

/-- The number of low bits of `n` that do not fit the 53-bit significand of a double; the
first argument bounds the number of halvings. -/
def excessBits : Nat → Nat → Nat
  | 0, _ => 0
  | fuel + 1, n => if n < 2 ^ 53 then 0 else excessBits fuel (n / 2) + 1

/-- The bound `2 ^ 1024`: a value that rounds to it or above is `Infinity`. -/
def doubleLimit : Nat := 2 ^ 256 * 2 ^ 256 * 2 ^ 256 * 2 ^ 256

/-- The natural number `n` rounded to a 53-bit significand, a tie going to the even
significand. Below `2 ^ 53` nothing is rounded away. -/
def roundNat (n : Nat) : Nat :=
  let e := excessBits n n
  let q := n / 2 ^ e
  let r := n % 2 ^ e
  (if 2 ^ e < 2 * r ∨ (2 * r = 2 ^ e ∧ q % 2 = 1) then q + 1 else q) * 2 ^ e

/-- The double nearest to the natural number `n`: its rounded value, or `Infinity` when
that reaches `doubleLimit`. -/
def toDouble (n : Nat) : Num :=
  if doubleLimit ≤ roundNat n then .posInf else .finite (Int.ofNat (roundNat n))

/-- Unary minus. -/
def Num.neg : Num → Num
  | .finite v => .finite (-v)
  | .posInf => .negInf
  | .negInf => .posInf
  | .nan => .nan

/-- The subtraction `a - b` of two doubles: the exact difference of two finite values is
rounded to a double, and `Infinity - Infinity` is `NaN`. -/
def Num.sub : Num → Num → Num
  | .finite x, .finite y =>
    if x - y < 0 then (toDouble (x - y).natAbs).neg else toDouble (x - y).natAbs
  | .nan, _ => .nan
  | _, .nan => .nan
  | .posInf, .posInf => .nan
  | .negInf, .negInf => .nan
  | .posInf, _ => .posInf
  | .negInf, _ => .negInf
  | .finite _, .posInf => .negInf
  | .finite _, .negInf => .posInf

/-- The test `v < 0` the sort makes on a comparator result; a `NaN` result counts as `+0`. -/
def Num.isNegative : Num → Bool
  | .finite v => decide (v < 0)
  | .negInf => true
  | _ => false

/-- The order of numbers; `NaN` is not comparable. -/
def Num.le : Num → Num → Prop
  | .finite x, .finite y => x ≤ y
  | .negInf, .negInf => True
  | .negInf, .finite _ => True
  | .negInf, .posInf => True
  | .finite _, .posInf => True
  | .posInf, .posInf => True
  | _, _ => False

/-- The place of a number on the integer line, with the infinities at the two ends. -/
def Num.rank : Num → Int
  | .finite v => v
  | .posInf => doubleLimit
  | .negInf => -doubleLimit
  | .nan => 0

/-- The integer a run of decimal digits denotes. -/
def digitsValue (ds : Str) : Nat := ds.foldl (fun acc c => 10 * acc + (c.toNat - 48)) 0

/-- The call `parseInt(ds)` on a run of decimal digits: the double nearest to the integer
the digits denote. -/
def parseInt (ds : Str) : Num := toDouble (digitsValue ds)

/-- The numeric page index of a file name, when the name matches the numbering pattern: the
integer value of the digits. -/
def pageIndex (f : Str) : Option Nat := (matchPage f).map digitsValue

/-- The number the comparator computes for a file name that matches the numbering pattern. -/
def pageNumber (f : Str) : Option Num := (matchPage f).map parseInt

/-- The comparator `(a, b) => parseInt(a.match(..)[1]) - parseInt(b.match(..)[1])`.
Indexing `null` throws a `TypeError`. -/
def compareSlides (a b : Str) : Except Thrown Num :=
  match matchPage a with
  | none => .error .typeError
  | some da =>
    match matchPage b with
    | none => .error .typeError
    | some db => .ok ((parseInt da).sub (parseInt db))

/-! ## `Array.prototype.sort` -/

/-- One insertion step of the sort: `x` goes in front of the first element it compares
below; a throwing comparator aborts the sort. -/
def insertSorted {α ε : Type} (cmp : α → α → Except ε Num) (x : α) :
    List α → Except ε (List α)
  | [] => .ok [x]
  | y :: ys =>
    match cmp x y with
    | .error e => .error e
    | .ok c =>
      if c.isNegative then .ok (x :: y :: ys)
      else
        match insertSorted cmp x ys with
        | .error e => .error e
        | .ok r => .ok (y :: r)

/-- The sort loop: `acc` is the sorted part, the second list what is still to insert. -/
def sortLoop {α ε : Type} (cmp : α → α → Except ε Num) : List α → List α → Except ε (List α)
  | acc, [] => .ok acc
  | acc, x :: xs =>
    match insertSorted cmp x acc with
    | .error e => .error e
    | .ok acc' => sortLoop cmp acc' xs

/-- The method `arr.sort(cmp)` as a stable insertion sort. An array of fewer than two
elements never reaches the comparator. -/
def jsSort {α ε : Type} (cmp : α → α → Except ε Num) (l : List α) : Except ε (List α) :=
  sortLoop cmp [] l

/-- The `filter` of the enumeration: names that start with the basename of the image prefix
and end in `.jpg`. -/
def selectSlides (base : Str) (files : List Str) : List Str :=
  files.filter (fun f => startsWith f base && endsWith f ".jpg".toList)

/-- The value of `slideImages`: the selected names, sorted by the comparator. -/
def slideImages (base : Str) (files : List Str) : Except Thrown (List Str) :=
  jsSort compareSlides (selectSlides base files)

/-- The names `pre-1.jpg`, ..., `pre-12.jpg` in page order. -/
def twelvePages (pre : Str) : List Str :=
  (List.range' 1 12).map (fun n => pre ++ "-".toList ++ numStr n ++ ".jpg".toList)

deriving instance DecidableEq for Except

/-! ## Node's `path` module (POSIX form) -/

/-- The pieces of a path between slashes, as `p.split('/')` gives them. -/
def segments : Str → List Str
  | [] => [[]]
  | c :: cs =>
    if c = '/' then [] :: segments cs
    else
      match segments cs with
      | [] => [[c]]
      | s :: ss => (c :: s) :: ss

/-- One step of `normalizeString`: `stack` holds the segments kept so far, last one first.
Empty and `.` segments are dropped; `..` removes the last kept segment, or is kept itself
when there is none to remove and the path may climb above its start. -/
def pushSegment (allowAboveRoot : Bool) (stack : List Str) (seg : Str) : List Str :=
  if seg = [] ∨ seg = ['.'] then stack
  else if seg = ['.', '.'] then
    match stack with
    | [] => if allowAboveRoot then [seg] else []
    | top :: rest =>
      if top = ['.', '.'] then (if allowAboveRoot then seg :: stack else stack) else rest
  else seg :: stack

/-- Segments joined with single slashes. -/
def joinSlash : List Str → Str
  | [] => []
  | [s] => s
  | s :: ss => s ++ '/' :: joinSlash ss

/-- Node's `normalizeString(path, allowAboveRoot, '/')`. -/
def normalizeString (p : Str) (allowAboveRoot : Bool) : Str :=
  joinSlash (((segments p).foldl (pushSegment allowAboveRoot) []).reverse)

/-- The function `path.normalize`. -/
def normalize (p : Str) : Str :=
  if p = [] then ['.']
  else
    let isAbsolute := p.head? = some '/'
    let trailingSeparator := p.getLast? = some '/'
    let r := normalizeString p (!isAbsolute)
    if r = [] then
      if isAbsolute then ['/'] else if trailingSeparator then ['.', '/'] else ['.']
    else
      let r := if trailingSeparator then r ++ ['/'] else r
      if isAbsolute then '/' :: r else r

/-- The function `path.join` on two arguments, in its POSIX form. -/
def join (a b : Str) : Str :=
  if a = [] ∧ b = [] then ['.']
  else if a = [] then normalize b
  else if b = [] then normalize a
  else normalize (a ++ '/' :: b)

/-- The function `path.resolve` on one argument, with `cwd` the working directory. -/
def resolve (cwd p : Str) : Str :=
  let joined := if p = [] then cwd ++ ['/']
    else if p.head? = some '/' then p ++ ['/'] else cwd ++ '/' :: (p ++ ['/'])
  let resolvedAbsolute := joined.head? = some '/'
  let r := normalizeString joined (!resolvedAbsolute)
  if resolvedAbsolute then '/' :: r else if r ≠ [] then r else ['.']

/-- The last portion of a path: trailing slashes are ignored. This is `path.basename`. -/
def basename (p : Str) : Str :=
  ((p.reverse.dropWhile (fun c => c = '/')).takeWhile (fun c => c ≠ '/')).reverse

/-- The extension of one path portion: from its last `.` to its end; empty when there is
no `.`, when the only `.` is the first character, and for the portion `..`. -/
def extOf (comp : Str) : Str :=
  let tail := (comp.reverse.takeWhile (fun c => c ≠ '.')).reverse
  let stem := (comp.reverse.dropWhile (fun c => c ≠ '.')).drop 1
  if '.' ∉ comp then []
  else if stem = [] then []
  else if comp = ['.', '.'] then []
  else '.' :: tail

/-- The function `path.extname`. -/
def extname (p : Str) : Str := extOf (basename p)

/-- The field `path.parse(p).name`: the last portion without its extension. For the path
`/..` (with any trailing slashes) Node reports the name `.`. -/
def parseName (p : Str) : Str :=
  let comp := basename p
  if p.head? = some '/' ∧ (p.drop 1).reverse.dropWhile (fun c => c = '/') = ['.', '.'] then ['.']
  else comp.take (comp.length - (extOf comp).length)

/-! ## The filesystem -/

/-- The filesystem: the paths that exist. -/
abbrev FS := List Str

/-- The call `fs.existsSync(p)`. -/
def existsSync (fs : FS) (p : Str) : Bool := decide (p ∈ fs)

/-- The call `fs.unlinkSync(p)`: throws when `p` does not exist. -/
def unlinkSync (fs : FS) (p : Str) : Except Thrown FS :=
  if p ∈ fs then .ok (fs.filter (fun q => q ≠ p)) else .error (.enoent p)

/-- A block `try { fs.unlinkSync(p1); fs.unlinkSync(p2); ... } catch(e) {}`: the first
failing call skips the remaining ones. -/
def tryUnlinkAll (fs : FS) : List Str → FS
  | [] => fs
  | p :: ps =>
    match unlinkSync fs p with
    | .ok fs' => tryUnlinkAll fs' ps
    | .error _ => fs

/-- The path `q` is the directory `dir` or lies below it. -/
def underDir (dir q : Str) : Bool := decide (q = dir) || (dir ++ ['/']).isPrefixOf q

/-- The call `fs.rmSync(dir, { recursive: true, force: true })`: removes `dir` and all
below it, and does not throw when `dir` is missing. -/
def rmSync (fs : FS) (dir : Str) : FS := fs.filter (fun q => !underDir dir q)

/-- The longest file name the filesystem takes, in bytes. -/
def nameMax : Nat := 255

/-- The length of a string in UTF-8 bytes. -/
def utf8Length (s : Str) : Nat := (s.map Char.utf8Size).sum

/-- The call `fs.renameSync(src, dst)`: throws when `src` does not exist, and when the last
portion of `dst` is longer than the filesystem takes. -/
def renameSync (fs : FS) (src dst : Str) : Except Thrown FS :=
  if src ∈ fs then
    if nameMax < utf8Length (basename dst) then .error (.nameTooLong dst)
    else .ok (dst :: fs.filter (fun q => q ≠ src ∧ q ≠ dst))
  else .error (.enoent src)

/-- The call `fs.readdirSync(dir)`: the names directly inside `dir`. -/
def readdirSync (fs : FS) (dir : Str) : List Str :=
  fs.filterMap (fun q =>
    if (dir ++ ['/']).isPrefixOf q then
      let name := q.drop (dir.length + 1)
      if name ≠ [] ∧ '/' ∉ name then some name else none
    else none)

/-! ## Requests, responses, child processes -/

/-- The field `req.file` that the upload middleware fills in. -/
structure UploadedFile where
  path : Str
  originalname : Str
  deriving DecidableEq, Repr

/-- The fields of `req.body` the handlers read; `none` is `undefined`. -/
structure Body where
  level : Option Str
  password : Option Str
  deriving DecidableEq, Repr

/-- A request, as far as the handlers look at it. -/
structure Request where
  file : Option UploadedFile
  body : Body
  deriving DecidableEq, Repr

/-- What a handler answers. -/
inductive Response
  | send (status : Nat) (body : Str)
  | json (status : Nat) (error : Str)
  | jsonSuccess (downloadUrl : Str) (newSize : Str)
  | download (path : Str) (filename : Option Str)
  deriving DecidableEq, Repr

/-- A success response: the success JSON or a file download. -/
def Response.isSuccess : Response → Bool
  | .jsonSuccess _ _ => true
  | .download _ _ => true
  | _ => false

/-- The HTTP status a handler sets explicitly. -/
def Response.status : Response → Option Nat
  | .send s _ => some s
  | .json s _ => some s
  | _ => none

/-- A 5xx failure response. -/
def Response.isServerError (r : Response) : Bool :=
  match r.status with
  | some s => decide (500 ≤ s ∧ s < 600)
  | none => false

/-- The field `error.code` of a failed child process: the exit status, a system error name
such as `ENOENT`, or `null` when a signal ended the process. -/
inductive ErrorCode
  | exit (n : Nat)
  | name (s : Str)
  | null
  deriving DecidableEq, Repr

/-- The `error` argument of the `exec` callback. -/
structure ExecError where
  code : ErrorCode
  deriving DecidableEq, Repr

/-- The arguments of the `exec` callback; `error = none` is `null`. -/
structure ExecResult where
  error : Option ExecError
  stdout : Str
  stderr : Str
  deriving DecidableEq, Repr

/-- A child process: from the command line and the filesystem it starts on, to the callback
arguments and the filesystem it leaves. -/
abbrev Exec := Str → FS → ExecResult × FS

/-- The host configuration: `isWindows` is `os.platform() === 'win32'`, `dirname` is
`__dirname`, `cwd` is the working directory. -/
structure Env where
  isWindows : Bool
  dirname : Str
  cwd : Str
  deriving DecidableEq, Repr

def port : Nat := 3000

def GS_PATH (env : Env) : Str :=
  if env.isWindows then "\"C:\\Program Files\\gs\\gs10.06.0\\bin\\gswin64c.exe\"".toList
  else "gs".toList

def SOFFICE_PATH (env : Env) : Str :=
  if env.isWindows then "\"C:\\Program Files\\LibreOffice\\program\\soffice.exe\"".toList
  else "soffice".toList

def POPPLER_PATH (env : Env) : Str :=
  if env.isWindows then "\"C:\\Program Files\\poppler\\Library\\bin\\pdftocairo.exe\"".toList
  else "pdftocairo".toList

def QPDF_PATH (env : Env) : Str :=
  if env.isWindows then "\"C:\\Program Files\\qpdf\\bin\\qpdf.exe\"".toList
  else "qpdf".toList

def uploadDir (env : Env) : Str := join env.dirname "uploads".toList

def outputDir (env : Env) : Str := join env.dirname "outputs".toList

def tempDir (env : Env) : Str := join env.dirname "temp_profiles".toList

/-- A string between double quotes, as the command templates write their arguments. -/
def quoted (s : Str) : Str := '"' :: (s ++ ['"'])

/-- The call `x.toFixed(2)` for `x = size / 1024 / 1024`: the nearest multiple of one
hundredth, the larger one on a tie, written with two decimals. -/
def sizeInMB (size : Nat) : Str :=
  let n := (200 * size + 2 ^ 20) / 2 ^ 21
  let cents := n % 100
  numStr (n / 100) ++ '.' :: ((if cents < 10 then ['0'] else []) ++ numStr cents)

/-- JavaScript truthiness of an optional string: `undefined` and the empty string are falsy. -/
def truthy : Option Str → Bool
  | none => false
  | some s => !s.isEmpty

/-! ## Routes

Each route is its handler, which builds the paths and the command line and starts the child
process, and the callback that `exec` runs when the process has ended. The second component
of a result is the filesystem once the last callback of the job has run: for a download,
that is the callback given to `res.download`. -/

/-- The value of `fileID` in `/compress-pdf`. -/
def compressFileID (now : Nat) : Str := "compressed-".toList ++ numStr now ++ ".pdf".toList

/-- The value of `outputPath` in `/compress-pdf`. -/
def compressOutputPath (env : Env) (now : Nat) : Str := join (outputDir env) (compressFileID now)

/-- The value of `qualitySetting` in `/compress-pdf`, with `level` read as
`req.body.level || 'recommended'`. -/
def qualitySetting (body : Body) : Str :=
  let level := if truthy body.level then body.level.getD [] else "recommended".toList
  if level = "less".toList then "/printer".toList
  else if level = "extreme".toList then "/screen".toList
  else "/ebook".toList

/-- The value of `command` in `/compress-pdf`. -/
def compressCommand (env : Env) (now : Nat) (req : Request) (file : UploadedFile) : Str :=
  GS_PATH env ++ " -sDEVICE=pdfwrite -dCompatibilityLevel=1.4 -dPDFSETTINGS=".toList
    ++ qualitySetting req.body ++ " -dNOPAUSE -dQUIET -dBATCH -sOutputFile=".toList
    ++ quoted (compressOutputPath env now) ++ " ".toList ++ quoted (resolve env.cwd file.path)

/-- The exec callback of `/compress-pdf`. `statSize` is `fs.statSync(p).size`. -/
def compressCallback (env : Env) (statSize : Str → Nat) (now : Nat) (file : UploadedFile)
    (out : ExecResult) (fs1 : FS) : Response × FS :=
  let fs2 := tryUnlinkAll fs1 [resolve env.cwd file.path]
  match out.error with
  | some _ => (.json 500 "Compression failed".toList, fs2)
  | none =>
    if existsSync fs2 (compressOutputPath env now) then
      (.jsonSuccess
        ("http://localhost:".toList ++ numStr port ++ "/download/".toList ++ compressFileID now)
        (sizeInMB (statSize (compressOutputPath env now))), fs2)
    else (.json 500 "Output file missing".toList, fs2)

/-- Route `POST /compress-pdf`. -/
def compressPdf (env : Env) (exec : Exec) (statSize : Str → Nat) (now : Nat) (req : Request)
    (fs : FS) : Response × FS :=
  match req.file with
  | none => (.json 400 "No file uploaded".toList, fs)
  | some file =>
    let r := exec (compressCommand env now req file) fs
    compressCallback env statSize now file r.1 r.2

/-- Route `GET /download/:filename`. The delivery callback removes nothing. -/
def download (env : Env) (filename : Str) (fs : FS) : Response × FS :=
  let filePath := join (outputDir env) filename
  if existsSync fs filePath then (.download filePath (some "compressed.pdf".toList), fs)
  else (.send 404 "File not found or expired.".toList, fs)

/-- The command template of the three office-to-PDF routes. -/
def sofficeCommand (env : Env) (profileUrl outdir inputPathWithExt : Str) : Str :=
  SOFFICE_PATH env ++ " -env:UserInstallation=".toList ++ quoted profileUrl
    ++ " --headless --convert-to pdf --outdir ".toList ++ quoted outdir ++ " ".toList
    ++ quoted inputPathWithExt

/-- The value of `uniqueProfileDir` in the office-to-PDF routes. -/
def uniqueProfileDir (env : Env) (now : Nat) : Str :=
  join (tempDir env) ("profile-".toList ++ numStr now)

/-- The value of `profileUrl` in the office-to-PDF routes. -/
def profileUrl (env : Env) (now : Nat) : Str :=
  "file:///".toList ++ backslashesToSlashes (uniqueProfileDir env now)

/-- The value of `inputPathWithExt` in the office-to-PDF routes. -/
def inputPathWithExt (env : Env) (file : UploadedFile) : Str :=
  resolve env.cwd file.path ++ extname file.originalname

/-- The value of `generatedFile` in the office-to-PDF routes. -/
def generatedFile (env : Env) (file : UploadedFile) : Str :=
  join (outputDir env) (parseName (inputPathWithExt env file) ++ ".pdf".toList)

/-- The value of `command` in the office-to-PDF routes; `outdir` is `outputDir`, or
`path.resolve(outputDir)` in `/convert`. -/
def officeCommand (env : Env) (now : Nat) (file : UploadedFile) (outdir : Str) : Str :=
  sofficeCommand env (profileUrl env now) outdir (inputPathWithExt env file)

/-- The exec callback of `/excel-to-pdf`. -/
def excelToPdfCallback (env : Env) (now : Nat) (file : UploadedFile) (out : ExecResult)
    (fs1 : FS) : Response × FS :=
  let fs2 := rmSync fs1 (uniqueProfileDir env now)
  match out.error with
  | some _ =>
    (.send 500 "PDF creation failed.".toList, tryUnlinkAll fs2 [inputPathWithExt env file])
  | none =>
    if existsSync fs2 (generatedFile env file) then
      (.download (generatedFile env file) none,
        tryUnlinkAll fs2 [inputPathWithExt env file, generatedFile env file])
    else (.send 500 "PDF file not found.".toList, fs2)

/-- Route `POST /excel-to-pdf`. -/
def excelToPdf (env : Env) (exec : Exec) (now : Nat) (req : Request) (fs : FS) :
    Response × FS :=
  match req.file with
  | none => (.send 400 "No file uploaded.".toList, fs)
  | some file =>
    match renameSync fs (resolve env.cwd file.path) (inputPathWithExt env file) with
    | .error _ => (.send 500 "File processing error.".toList, fs)
    | .ok fs0 =>
      let r := exec (officeCommand env now file (outputDir env)) fs0
      excelToPdfCallback env now file r.1 r.2

/-- The exec callback of `/pptx-to-pdf`. -/
def pptxToPdfCallback (env : Env) (now : Nat) (file : UploadedFile) (out : ExecResult)
    (fs1 : FS) : Response × FS :=
  let fs2 := rmSync fs1 (uniqueProfileDir env now)
  match out.error with
  | some _ =>
    (.send 500 "PDF creation failed.".toList, tryUnlinkAll fs2 [inputPathWithExt env file])
  | none =>
    if existsSync fs2 (generatedFile env file) then
      (.download (generatedFile env file) none,
        tryUnlinkAll fs2 [inputPathWithExt env file, generatedFile env file])
    else (.send 500 "PDF file not found.".toList, fs2)

/-- Route `POST /pptx-to-pdf`. -/
def pptxToPdf (env : Env) (exec : Exec) (now : Nat) (req : Request) (fs : FS) :
    Response × FS :=
  match req.file with
  | none => (.send 400 "No file uploaded.".toList, fs)
  | some file =>
    match renameSync fs (resolve env.cwd file.path) (inputPathWithExt env file) with
    | .error _ => (.send 500 "File processing error.".toList, fs)
    | .ok fs0 =>
      let r := exec (officeCommand env now file (outputDir env)) fs0
      pptxToPdfCallback env now file r.1 r.2

/-- The exec callback of `/convert`. -/
def convertCallback (env : Env) (now : Nat) (file : UploadedFile) (out : ExecResult)
    (fs1 : FS) : Response × FS :=
  let fs2 := rmSync fs1 (uniqueProfileDir env now)
  match out.error with
  | some _ =>
    (.send 500 "Conversion failed. Check server console.".toList,
      tryUnlinkAll fs2 [inputPathWithExt env file])
  | none =>
    if existsSync fs2 (generatedFile env file) then
      (.download (generatedFile env file) none,
        tryUnlinkAll fs2 [inputPathWithExt env file, generatedFile env file])
    else
      (.send 500 "PDF was not created. Ensure fonts are installed.".toList,
        tryUnlinkAll fs2 [inputPathWithExt env file])

/-- Route `POST /convert` (Word to PDF). -/
def convert (env : Env) (exec : Exec) (now : Nat) (req : Request) (fs : FS) :
    Response × FS :=
  match req.file with
  | none => (.send 400 "No file uploaded.".toList, fs)
  | some file =>
    match renameSync fs (resolve env.cwd file.path) (inputPathWithExt env file) with
    | .error _ => (.send 500 "File processing error.".toList, fs)
    | .ok fs0 =>
      let r := exec (officeCommand env now file (resolve env.cwd (outputDir env))) fs0
      convertCallback env now file r.1 r.2

/-- The exec callback of the two script routes, `/convert-to-excel` and `/convert-to-word`:
the two callbacks are the same code. -/
def scriptCallback (inputPath outputPath outputFilename : Str) (out : ExecResult) (fs1 : FS) :
    Response × FS :=
  let fs2 := tryUnlinkAll fs1 [inputPath]
  if out.error.isSome || includes out.stdout "ERROR".toList then
    (.send 500 "Conversion failed.".toList, fs2)
  else if existsSync fs2 outputPath then
    (.download outputPath (some outputFilename), tryUnlinkAll fs2 [outputPath])
  else (.send 500 "Output file missing.".toList, fs2)

/-- The value of `command` in the two script routes. -/
def scriptCommand (pythonScript inputPath outputPath : Str) : Str :=
  "python ".toList ++ quoted pythonScript ++ " ".toList ++ quoted inputPath ++ " ".toList
    ++ quoted outputPath

/-- The value of `outputPath` in a script route; `suffix` is `.xlsx` or `.docx`. -/
def scriptOutputPath (env : Env) (file : UploadedFile) (suffix : Str) : Str :=
  join (outputDir env) (parseName file.originalname ++ suffix)

/-- Route `POST /convert-to-excel`. -/
def convertToExcel (env : Env) (exec : Exec) (req : Request) (fs : FS) : Response × FS :=
  match req.file with
  | none => (.send 400 "No file uploaded.".toList, fs)
  | some file =>
    let inputPath := resolve env.cwd file.path
    let outputFilename := parseName file.originalname ++ ".xlsx".toList
    let outputPath := scriptOutputPath env file ".xlsx".toList
    let pythonScript := join env.dirname "convert_excelpte.py".toList
    let r := exec (scriptCommand pythonScript inputPath outputPath) fs
    scriptCallback inputPath outputPath outputFilename r.1 r.2

/-- Route `POST /convert-to-word`. -/
def convertToWord (env : Env) (exec : Exec) (req : Request) (fs : FS) : Response × FS :=
  match req.file with
  | none => (.send 400 "No file uploaded.".toList, fs)
  | some file =>
    let inputPath := resolve env.cwd file.path
    let outputFilename := parseName file.originalname ++ ".docx".toList
    let outputPath := scriptOutputPath env file ".docx".toList
    let pythonScript := join env.dirname "convert_tablesptw.py".toList
    let r := exec (scriptCommand pythonScript inputPath outputPath) fs
    scriptCallback inputPath outputPath outputFilename r.1 r.2

/-- The value of `outputPath` in `/protect-pdf`. -/
def protectOutputPath (env : Env) (now : Nat) : Str :=
  join (outputDir env) ("protected-".toList ++ numStr now ++ ".pdf".toList)

/-- The value of `command` in `/protect-pdf`; `password` is the escaped password. -/
def protectCommand (env : Env) (password inputPath outputPath : Str) : Str :=
  QPDF_PATH env ++ " --encrypt ".toList ++ quoted password ++ " ".toList ++ quoted password
    ++ " 256 -- ".toList ++ quoted inputPath ++ " ".toList ++ quoted outputPath

/-- The exec callback of `/protect-pdf`. -/
def protectCallback (inputPath outputPath : Str) (out : ExecResult) (fs1 : FS) :
    Response × FS :=
  let fs2 := tryUnlinkAll fs1 [inputPath]
  match out.error with
  | some _ => (.send 500 "Encryption failed. Is the PDF already encrypted?".toList, fs2)
  | none =>
    if existsSync fs2 outputPath then
      (.download outputPath none, tryUnlinkAll fs2 [outputPath])
    else (.send 500 "Output file was not created.".toList, fs2)

/-- Route `POST /protect-pdf`. -/
def protectPdf (env : Env) (exec : Exec) (now : Nat) (req : Request) (fs : FS) :
    Response × FS :=
  match req.file with
  | none => (.send 400 "No file uploaded.".toList, fs)
  | some file =>
    if !truthy req.body.password then (.send 400 "Password is required.".toList, fs)
    else
      let inputPath := resolve env.cwd file.path
      let password := escapeQuotes (req.body.password.getD [])
      let r := exec (protectCommand env password inputPath (protectOutputPath env now)) fs
      protectCallback inputPath (protectOutputPath env now) r.1 r.2

/-- The value of `outputPath` in `/unlock-pdf`. -/
def unlockOutputPath (env : Env) (now : Nat) : Str :=
  join (outputDir env) ("unlocked-".toList ++ numStr now ++ ".pdf".toList)

/-- The value of `command` in `/unlock-pdf`; `password` is the escaped password. -/
def unlockCommand (env : Env) (password inputPath outputPath : Str) : Str :=
  QPDF_PATH env ++ " --password=".toList ++ quoted password ++ " --decrypt ".toList
    ++ quoted inputPath ++ " ".toList ++ quoted outputPath

/-- The exec callback of `/unlock-pdf`. A failed run is answered 401 when `stderr` is
non-empty and contains `invalid password`, or when the exit status is 2. -/
def unlockCallback (inputPath outputPath : Str) (out : ExecResult) (fs1 : FS) :
    Response × FS :=
  let fs2 := tryUnlinkAll fs1 [inputPath]
  match out.error with
  | some error =>
    if (!out.stderr.isEmpty && includes out.stderr "invalid password".toList)
        || decide (error.code = .exit 2) then
      (.send 401 "Incorrect password. Please try again.".toList, fs2)
    else (.send 500 "Failed to unlock PDF.".toList, fs2)
  | none =>
    if existsSync fs2 outputPath then
      (.download outputPath none, tryUnlinkAll fs2 [outputPath])
    else (.send 500 "Output file was not created.".toList, fs2)

/-- Route `POST /unlock-pdf`. -/
def unlockPdf (env : Env) (exec : Exec) (now : Nat) (req : Request) (fs : FS) :
    Response × FS :=
  match req.file with
  | none => (.send 400 "No file uploaded.".toList, fs)
  | some file =>
    if !truthy req.body.password then
      (.send 400 "Password is required to unlock.".toList, fs)
    else
      let inputPath := resolve env.cwd file.path
      let password := escapeQuotes (req.body.password.getD [])
      let r := exec (unlockCommand env password inputPath (unlockOutputPath env now)) fs
      unlockCallback inputPath (unlockOutputPath env now) r.1 r.2

/-- The converter of an office job behaves: it leaves its input file in place, and adds
nothing to the filesystem `before` but the expected output file and files inside the
profile directory. -/
def ConverterBehaves (env : Env) (now : Nat) (file : UploadedFile) (before after : FS) : Prop :=
  inputPathWithExt env file ∈ after ∧
  ∀ p ∈ after, p ∈ before ∨ p = generatedFile env file
    ∨ underDir (uniqueProfileDir env now) p = true

/-- No path of an office job is left in `fs`: neither the upload path, nor the staged
input, nor the output file, nor the profile directory or anything below it. -/
def OfficeJobClean (env : Env) (now : Nat) (file : UploadedFile) (fs : FS) : Prop :=
  resolve env.cwd file.path ∉ fs ∧ inputPathWithExt env file ∉ fs
    ∧ generatedFile env file ∉ fs ∧ ∀ p ∈ fs, underDir (uniqueProfileDir env now) p = false

/-! ## The slide deck of `/pdf-to-pptx` -/

/-- The pixel size `sizeOf(buffer)` reports. -/
structure Dimensions where
  width : Nat
  height : Nat
  deriving DecidableEq, Repr

/-- The argument of `slide.addImage`. -/
structure ImageOptions where
  path : Str
  x : ℚ
  y : ℚ
  w : ℚ
  h : ℚ
  deriving DecidableEq

/-- The presentation handed to `writeFile`: the layout defined and selected, and for each
slide, in order, the image added to it. -/
structure Presentation where
  layout : Str
  width : ℚ
  height : ℚ
  slides : List ImageOptions
  deriving DecidableEq

/-- The promise `pres.writeFile({ fileName })`: `none` when it resolves, the rejection
otherwise, together with the filesystem the call leaves. -/
abbrev WriteFile := Presentation → Str → FS → Option Thrown × FS

/-- From the emptiness check to the last `addImage` of the `try` block. `imageSize p` is
`sizeOf(fs.readFileSync(p))`, which throws on an unreadable file. -/
def buildPresentation (outDir : Str) (imageSize : Str → Except Thrown Dimensions)
    (slideImages : List Str) : Except Thrown Presentation :=
  match slideImages with
  | [] => .error (.error "No images generated.".toList)
  | first :: _ =>
    match imageSize (join outDir first) with
    | .error e => .error e
    | .ok dimensions =>
      let widthInches : ℚ := (dimensions.width : ℚ) / 150
      let heightInches : ℚ := (dimensions.height : ℚ) / 150
      .ok { layout := "PDF_SIZE".toList, width := widthInches, height := heightInches,
            slides := slideImages.map (fun img =>
              { path := join outDir img, x := 0, y := 0, w := widthInches, h := heightInches }) }

/-- The value of `outputPath` in `/pdf-to-pptx`. -/
def pptxOutputPath (env : Env) (now : Nat) : Str :=
  join (outputDir env) ("presentation-".toList ++ numStr now ++ ".pptx".toList)

/-- The value of `imgPrefix` in `/pdf-to-pptx`. -/
def imgPrefix (env : Env) (now : Nat) : Str :=
  join (outputDir env) ("slide-".toList ++ numStr now)

/-- The value of `command` in `/pdf-to-pptx`. -/
def popplerCommand (env : Env) (now : Nat) (file : UploadedFile) : Str :=
  POPPLER_PATH env ++ " -jpeg -r 150 ".toList
    ++ quoted (resolve env.cwd file.path) ++ " ".toList ++ quoted (imgPrefix env now)

/-- The exec callback of `/pdf-to-pptx`. The two `Date.now()` readings are `now1` (output
name) and `now2` (image prefix). Every throw inside the `try` block ends in the one `catch`. -/
def pdfToPptxCallback (env : Env) (imageSize : Str → Except Thrown Dimensions)
    (writeFile : WriteFile) (now1 now2 : Nat) (file : UploadedFile) (out : ExecResult)
    (fs1 : FS) : Response × FS :=
  match out.error with
  | some _ => (.send 500 "Image generation failed.".toList, fs1)
  | none =>
    let files := readdirSync fs1 (outputDir env)
    match slideImages (basename (imgPrefix env now2)) files with
    | .error _ => (.send 500 "PPTX creation failed.".toList, fs1)
    | .ok imgs =>
      match buildPresentation (outputDir env) imageSize imgs with
      | .error _ => (.send 500 "PPTX creation failed.".toList, fs1)
      | .ok pres =>
        match writeFile pres (pptxOutputPath env now1) fs1 with
        | (some _, fs2) => (.send 500 "PPTX creation failed.".toList, fs2)
        | (none, fs2) =>
          (.download (pptxOutputPath env now1) none,
            tryUnlinkAll fs2 ([resolve env.cwd file.path, pptxOutputPath env now1]
              ++ imgs.map (fun img => join (outputDir env) img)))

/-- Route `POST /pdf-to-pptx`. -/
def pdfToPptx (env : Env) (exec : Exec) (imageSize : Str → Except Thrown Dimensions)
    (writeFile : WriteFile) (now1 now2 : Nat) (req : Request) (fs : FS) : Response × FS :=
  match req.file with
  | none => (.send 400 "No file uploaded.".toList, fs)
  | some file =>
    let r := exec (popplerCommand env now2 file) fs
    pdfToPptxCallback env imageSize writeFile now1 now2 file r.1 r.2

/-! ## Double-quoted arguments of a command line -/

/-- Reading a double-quoted argument after its opening quote: a backslash takes the next
character literally, an unescaped double quote ends the argument. The result is the
argument read and the rest of the command line; `none` when the quote never closes. -/
def readQuoted : Str → Option (Str × Str)
  | [] => none
  | c :: rest =>
    if c = '"' then some ([], rest)
    else if c = '\\' then
      match rest with
      | [] => none
      | d :: rest' => (readQuoted rest').map (fun r => (d :: r.1, r.2))
    else (readQuoted rest).map (fun r => (c :: r.1, r.2))

/-! ## Paths inside a directory -/

/-- The path `p` lies inside the directory `dir`: it is `dir`, a slash, and a non-empty rest
with no `..` segment. -/
def insideDir (dir p : Str) : Bool :=
  (dir ++ ['/']).isPrefixOf p && !(p.drop (dir.length + 1)).isEmpty
    && !(segments (p.drop (dir.length + 1))).contains ['.', '.']

/-- A segment stack as `normalizeString` builds it: kept names, last one first, above a run
of `..` segments, which is empty when the path may not climb above its start. -/
def ValidStack (allowAboveRoot : Bool) (stack : List Str) : Prop :=
  ∃ names k, stack = names ++ List.replicate k ['.', '.'] ∧
    (∀ s ∈ names, s ≠ [] ∧ s ≠ ['.'] ∧ s ≠ ['.', '.']) ∧ (allowAboveRoot = false → k = 0)

/-! ## Concrete inputs -/

/-- The listing used to run C1: pages 10, 2 and 1 of job `slide-7` next to a foreign file. -/
def c1Listing : List Str :=
  ["slide-7-10.jpg".toList, "x.jpg".toList, "slide-7-2.jpg".toList, "slide-7-1.jpg".toList]

/-- A listing of job `slide-5` with the page indices `2 ^ 53 + 1` and `2 ^ 53`, in that
order. -/
def hugeIndexListing : List Str :=
  ["slide-5-09007199254740993.jpg".toList, "slide-5-9007199254740992.jpg".toList]

/-- An image-size oracle: the first page is 1650 by 1275 pixels, any other file 800 by 600. -/
def c2ImageSize : Str → Except Thrown Dimensions := fun p =>
  if p = "/app/outputs/slide-7-1.jpg".toList then .ok ⟨1650, 1275⟩ else .ok ⟨800, 600⟩

/-- A host with the server installed in `/app`. -/
def appEnv : Env := { isWindows := false, dirname := "/app".toList, cwd := "/app".toList }

/-- An upload of `report.pdf`, stored by the upload middleware as `uploads/ab12`. -/
def pdfUpload : Request :=
  { file := some { path := "uploads/ab12".toList, originalname := "report.pdf".toList },
    body := { level := none, password := none } }

/-- A compressor run that succeeds and writes `compressed-5.pdf` into the output directory. -/
def compressorOk : Exec := fun _ fs =>
  ({ error := none, stdout := [], stderr := [] }, "/app/outputs/compressed-5.pdf".toList :: fs)

/-- The filesystem holding just the upload `ab12`. -/
def uploadedFs : FS := ["/app/uploads/ab12".toList]

/-- An upload of `report.docx`, stored as `uploads/ab12`. -/
def docxFile : UploadedFile :=
  { path := "uploads/ab12".toList, originalname := "report.docx".toList }

/-- The request carrying `docxFile`. -/
def docxUpload : Request := { file := some docxFile, body := { level := none, password := none } }

/-- A converter run that succeeds: it writes `ab12.pdf` into the output directory and a
registry file into the profile directory of the job started at time 5. -/
def converterOk : Exec := fun _ fs =>
  ({ error := none, stdout := [], stderr := [] },
    "/app/temp_profiles/profile-5/registrymodifications.xcu".toList
      :: "/app/outputs/ab12.pdf".toList :: fs)

/-- A rasterizer run that succeeds and writes the one page image `slide-5-1.jpg`. -/
def rasterizerOk : Exec := fun _ fs =>
  ({ error := none, stdout := [], stderr := [] }, "/app/outputs/slide-5-1.jpg".toList :: fs)

/-- An image-size oracle that reads every image as 1650 by 1275 pixels. -/
def imageOk : Str → Except Thrown Dimensions := fun _ => .ok ⟨1650, 1275⟩

/-- A `writeFile` whose promise resolves although no file has been written. -/
def writeFileSilent : WriteFile := fun _ _ fs => (none, fs)

/-- A `writeFile` that writes the deck and resolves. -/
def writeFileOk : WriteFile := fun _ p fs => (none, p :: fs)

/-- An upload of `locked.pdf`, stored as `uploads/ab12`, with the password `secret`. -/
def unlockUpload : Request :=
  { file := some { path := "uploads/ab12".toList, originalname := "locked.pdf".toList },
    body := { level := none, password := some "secret".toList } }

/-- A decryption run on a damaged file: exit status 2, and nothing about the password on
`stderr`. -/
def damagedRun : Exec := fun _ fs =>
  ({ error := some { code := .exit 2 }, stdout := [],
     stderr := "qpdf: /app/uploads/ab12: not a PDF file".toList }, fs)

/-- A decryption run with the wrong password. -/
def wrongPasswordRun : Exec := fun _ fs =>
  ({ error := some { code := .exit 2 }, stdout := [],
     stderr := "qpdf: /app/uploads/ab12: invalid password".toList }, fs)

/-- A script run that exits with status 0, writes `report.xlsx`, and prints the marker. -/
def scriptSaysError : Exec := fun _ fs =>
  ({ error := none, stdout := "ERROR: no tables found".toList, stderr := [] },
    "/app/outputs/report.xlsx".toList :: fs)

/-- An upload of `report.xlsx`, stored under the extension-free name `uploads/ab12`. -/
def xlsxFile : UploadedFile :=
  { path := "uploads/ab12".toList, originalname := "report.xlsx".toList }

/-- The request carrying `xlsxFile`. -/
def xlsxUpload : Request := { file := some xlsxFile, body := { level := none, password := none } }

/-- A second upload, `notes.docx`, stored as `uploads/cd34`. -/
def otherDocxFile : UploadedFile :=
  { path := "uploads/cd34".toList, originalname := "notes.docx".toList }

/-- A `Date.now()` reading shared by two jobs. -/
def sameMillisecond : Nat := 1700000000000

/-- A rasterizer run that succeeds and leaves one image whose name starts with the image
prefix of the job started at time 5 and ends in `.jpg`, but carries no page number. -/
def rasterizerOddName : Exec := fun _ fs =>
  ({ error := none, stdout := [], stderr := [] }, "/app/outputs/slide-5-cover.jpg".toList :: fs)

/-- A rasterizer run that succeeds and leaves a numbered image and an unnumbered one. -/
def rasterizerMixedNames : Exec := fun _ fs =>
  ({ error := none, stdout := [], stderr := [] },
    "/app/outputs/slide-5-1.jpg".toList :: "/app/outputs/slide-5-cover.jpg".toList :: fs)

/-- A rasterizer run that fails after it has written the first page image. -/
def rasterizerFails : Exec := fun _ fs =>
  ({ error := some { code := .exit 1 }, stdout := [], stderr := "Syntax Error".toList },
    "/app/outputs/slide-5-1.jpg".toList :: fs)

/-- A rasterizer run that reports no error and writes no image. -/
def rasterizerNoImages : Exec := fun _ fs => ({ error := none, stdout := [], stderr := [] }, fs)

/-- An image-size oracle that cannot read any image. -/
def imageUnreadable : Str → Except Thrown Dimensions := fun p => .error (.enoent p)

/-- A `writeFile` whose promise rejects and that writes nothing. -/
def writeFileRejects : WriteFile := fun _ _ fs => (some (.error "EACCES".toList), fs)

/-- A converter run that reports no error, writes a registry file into the profile directory
of the job started at time 5, and writes no output file. -/
def converterNoOutput : Exec := fun _ fs =>
  ({ error := none, stdout := [], stderr := [] },
    "/app/temp_profiles/profile-5/registrymodifications.xcu".toList :: fs)

/-- A converter run that writes `ab12.pdf` and leaves no staged input `ab12.docx` behind. -/
def converterTakesInput : Exec := fun _ fs =>
  ({ error := none, stdout := [], stderr := [] },
    "/app/outputs/ab12.pdf".toList :: fs.filter (fun p => p ≠ "/app/uploads/ab12.docx".toList))

/-- An upload whose original name has an extension of 256 bytes, stored as `uploads/ab12`. -/
def longExtensionFile : UploadedFile :=
  { path := "uploads/ab12".toList, originalname := 'r' :: '.' :: List.replicate 255 'x' }

/-- The request carrying `longExtensionFile`. -/
def longExtensionUpload : Request :=
  { file := some longExtensionFile, body := { level := none, password := none } }

/-! ## Sorting lemmas -/

theorem insertSorted_spec {α ε : Type} (cmp : α → α → Except ε Num) (key : α → Int) (x : α)
    (acc : List α)
    (hx : ∀ y ∈ acc, ∃ c, cmp x y = .ok c ∧ (c.isNegative = true ↔ key x < key y))
    (hs : acc.Pairwise (fun a b => key a ≤ key b)) :
    ∃ r, insertSorted cmp x acc = .ok r ∧ r.Perm (x :: acc) ∧
      r.Pairwise (fun a b => key a ≤ key b) := by
  induction acc with
  | nil => exact ⟨[x], rfl, List.Perm.refl _, List.pairwise_singleton _ _⟩
  | cons y ys ih =>
    obtain ⟨c, hy, hsign⟩ := hx y (List.mem_cons_self _ _)
    rw [List.pairwise_cons] at hs
    by_cases hc : c.isNegative = true
    · have hlt := hsign.1 hc
      refine ⟨x :: y :: ys, by simp [insertSorted, hy, hc], List.Perm.refl _, ?_⟩
      refine List.pairwise_cons.2 ⟨?_, List.pairwise_cons.2 hs⟩
      intro b hb
      rcases List.mem_cons.1 hb with rfl | hb
      · omega
      · have := hs.1 b hb
        omega
    · have hge : ¬ key x < key y := fun h => hc (hsign.2 h)
      obtain ⟨r, hr, hp, hsr⟩ := ih (fun z hz => hx z (List.mem_cons_of_mem _ hz)) hs.2
      refine ⟨y :: r, by simp [insertSorted, hy, hc, hr], ?_, ?_⟩
      · exact (List.Perm.cons y hp).trans (List.Perm.swap x y ys)
      · refine List.pairwise_cons.2 ⟨?_, hsr⟩
        intro b hb
        rcases List.mem_cons.1 (hp.subset hb) with rfl | hb
        · omega
        · exact hs.1 b hb

theorem sortLoop_spec {α ε : Type} (cmp : α → α → Except ε Num) (key : α → Int)
    (l acc : List α)
    (h : ∀ a ∈ acc ++ l, ∀ b ∈ acc ++ l,
      ∃ c, cmp a b = .ok c ∧ (c.isNegative = true ↔ key a < key b))
    (hs : acc.Pairwise (fun a b => key a ≤ key b)) :
    ∃ r, sortLoop cmp acc l = .ok r ∧ r.Perm (acc ++ l) ∧
      r.Pairwise (fun a b => key a ≤ key b) := by
  induction l generalizing acc with
  | nil => exact ⟨acc, rfl, by simp, hs⟩
  | cons x xs ih =>
    obtain ⟨acc', h1, hp, hs'⟩ := insertSorted_spec cmp key x acc
      (fun y hy => h x (by simp) y (by simp [hy])) hs
    have hsub : ∀ a, a ∈ acc' ++ xs → a ∈ acc ++ x :: xs := by
      intro a ha
      rcases List.mem_append.1 ha with ha | ha
      · rcases List.mem_cons.1 (hp.subset ha) with rfl | ha
        · simp
        · simp [ha]
      · simp [ha]
    obtain ⟨r, hr, hpr, hsr⟩ := ih acc' (fun a ha b hb => h a (hsub a ha) b (hsub b hb)) hs'
    refine ⟨r, by simp [sortLoop, h1, hr], ?_, hsr⟩
    refine hpr.trans ?_
    have : (acc' ++ xs).Perm ((x :: acc) ++ xs) := List.Perm.append_right xs hp
    exact this.trans (by simpa using (@List.perm_middle _ x acc xs).symm)

theorem jsSort_spec {α ε : Type} (cmp : α → α → Except ε Num) (key : α → Int) (l : List α)
    (h : ∀ a ∈ l, ∀ b ∈ l, ∃ c, cmp a b = .ok c ∧ (c.isNegative = true ↔ key a < key b)) :
    ∃ r, jsSort cmp l = .ok r ∧ r.Perm l ∧ r.Pairwise (fun a b => key a ≤ key b) := by
  simpa [jsSort] using sortLoop_spec cmp key l [] (by simpa using h) List.Pairwise.nil

/-! ## Rounding to a double -/

theorem excessBits_of_lt (fuel n : Nat) (h : n < 2 ^ 53) : excessBits fuel n = 0 := by
  cases fuel with
  | zero => rfl
  | succ f =>
    unfold excessBits
    rw [if_pos h]

theorem excessBits_pow_le (fuel n : Nat) (h : 1 ≤ n) : 2 ^ excessBits fuel n ≤ n := by
  induction fuel generalizing n with
  | zero => simpa [excessBits] using h
  | succ f ih =>
    unfold excessBits
    by_cases hlt : n < 2 ^ 53
    · rw [if_pos hlt]
      simpa using h
    · rw [if_neg hlt]
      have h2 : 1 ≤ n / 2 := by
        have h53 : (2 : Nat) ≤ 2 ^ 53 := by norm_num
        omega
      have := ih (n / 2) h2
      rw [Nat.pow_succ]
      omega

theorem pow53_lt_doubleLimit : 2 ^ 53 < doubleLimit := by
  unfold doubleLimit
  norm_num

theorem roundNat_of_lt (n : Nat) (h : n < 2 ^ 53) : roundNat n = n := by
  unfold roundNat
  dsimp only
  rw [excessBits_of_lt n n h]
  have h1 : ¬ (2 ^ 0 < 2 * (n % 2 ^ 0) ∨ (2 * (n % 2 ^ 0) = 2 ^ 0 ∧ n / 2 ^ 0 % 2 = 1)) := by
    simp only [Nat.pow_zero, Nat.mod_one]
    omega
  rw [if_neg h1]
  simp

theorem roundNat_pos (n : Nat) (h : 0 < n) : 0 < roundNat n := by
  unfold roundNat
  dsimp only
  have hpow := excessBits_pow_le n n h
  have hp : 0 < 2 ^ excessBits n n := Nat.pos_pow_of_pos _ (by norm_num)
  have hq : 1 ≤ n / 2 ^ excessBits n n := (Nat.one_le_div_iff hp).2 hpow
  split
  · exact Nat.mul_pos (by omega) hp
  · exact Nat.mul_pos (by omega) hp

/-- Below `2 ^ 53` rounding changes nothing. -/
theorem toDouble_of_lt (n : Nat) (h : n < 2 ^ 53) : toDouble n = .finite n := by
  unfold toDouble
  rw [roundNat_of_lt n h]
  have h2 : ¬ doubleLimit ≤ n := by
    have := pow53_lt_doubleLimit
    omega
  rw [if_neg h2]
  rfl

/-- A rounded natural number is `Infinity` or a natural number below the limit, and it is
positive when the number is. -/
theorem toDouble_cases (n : Nat) :
    toDouble n = .posInf ∨
      ∃ v : Nat, toDouble n = .finite v ∧ v < doubleLimit ∧ (0 < n → 0 < v) := by
  unfold toDouble
  by_cases hlim : doubleLimit ≤ roundNat n
  · rw [if_pos hlim]
    exact Or.inl rfl
  · rw [if_neg hlim]
    exact Or.inr ⟨roundNat n, rfl, Nat.lt_of_not_le hlim, roundNat_pos n⟩

/-- The sign test on the difference of two rounded natural numbers compares their places. -/
theorem sub_isNegative (a b : Nat) :
    ((toDouble a).sub (toDouble b)).isNegative = true
      ↔ (toDouble a).rank < (toDouble b).rank := by
  have hlim : (0 : Int) < doubleLimit := by
    have := pow53_lt_doubleLimit
    have : 0 < doubleLimit := by omega
    exact_mod_cast this
  rcases toDouble_cases a with ha | ⟨x, ha, hx, -⟩ <;>
    rcases toDouble_cases b with hb | ⟨y, hb, hy, -⟩
  · simp [ha, hb, Num.sub, Num.isNegative, Num.rank]
  · rw [ha, hb]
    simp only [Num.sub, Num.isNegative, Num.rank]
    have : ¬ ((doubleLimit : Int) < (y : Int)) := by
      have : (y : Int) < doubleLimit := by exact_mod_cast hy
      omega
    simp [this]
  · rw [ha, hb]
    simp only [Num.sub, Num.isNegative, Num.rank]
    have : (x : Int) < doubleLimit := by exact_mod_cast hx
    simp [this]
  · rw [ha, hb]
    simp only [Num.sub, Num.rank]
    by_cases hlt : (x : Int) - y < 0
    · rw [if_pos hlt]
      have hpos : 0 < ((x : Int) - y).natAbs := by omega
      rcases toDouble_cases ((x : Int) - y).natAbs with h | ⟨v, h, -, hv⟩
      · rw [h]
        simp only [Num.neg, Num.isNegative, true_iff]
        omega
      · rw [h]
        have := hv hpos
        simp only [Num.neg, Num.isNegative, decide_eq_true_eq]
        constructor
        · intro _; omega
        · intro _; omega
    · rw [if_neg hlt]
      rcases toDouble_cases ((x : Int) - y).natAbs with h | ⟨v, h, -, -⟩
      · rw [h]
        simp only [Num.isNegative, Bool.false_eq_true, false_iff]
        omega
      · rw [h]
        simp only [Num.isNegative, decide_eq_true_eq]
        constructor
        · intro hneg; omega
        · intro h'; omega

/-- Rounded natural numbers are ordered as their places are. -/
theorem le_of_rank_le (a b : Nat) (h : (toDouble a).rank ≤ (toDouble b).rank) :
    (toDouble a).le (toDouble b) := by
  rcases toDouble_cases a with ha | ⟨x, ha, hx, -⟩ <;>
    rcases toDouble_cases b with hb | ⟨y, hb, hy, -⟩
  · rw [ha, hb]; trivial
  · rw [ha, hb] at h
    simp only [Num.rank] at h
    have : (y : Int) < doubleLimit := by exact_mod_cast hy
    omega
  · rw [ha, hb]; trivial
  · rw [ha, hb] at h ⊢
    exact h

/-! ## The numbering pattern -/

theorem takeWhile_digits_append (ds r : Str) (hd : ∀ c ∈ ds, c.isDigit = true)
    (hr : ∀ c, r.head? = some c → c.isDigit = false) :
    (ds ++ r).takeWhile Char.isDigit = ds ∧ (ds ++ r).dropWhile Char.isDigit = r := by
  induction ds with
  | nil =>
    cases r with
    | nil => simp
    | cons c cs => simp [List.takeWhile, List.dropWhile, hr c rfl]
  | cons d ds ih =>
    have h1 := hd d (List.mem_cons_self _ _)
    have := ih (fun c hc => hd c (List.mem_cons_of_mem _ hc))
    simp [List.takeWhile, List.dropWhile, h1, this]

theorem matchPageAt_digits (ds : Str) (hne : ds ≠ []) (hd : ∀ c ∈ ds, c.isDigit = true) :
    matchPageAt ('-' :: (ds ++ ".jpg".toList)) = some ds := by
  have h := takeWhile_digits_append ds ".jpg".toList hd
    (by intro c hc; have : c = '.' := by simpa using hc.symm
        subst this; decide)
  simp only [matchPageAt, h.1, h.2]
  simp [hne]

theorem matchPageAt_inside (c : Char) (pre ds : Str) :
    matchPageAt (c :: (pre ++ '-' :: (ds ++ ".jpg".toList))) = none := by
  by_cases hc : c = '-'
  · subst hc
    simp only [matchPageAt]
    rw [if_neg]
    rintro ⟨-, h⟩
    have h2 := List.takeWhile_append_dropWhile Char.isDigit (pre ++ '-' :: (ds ++ ".jpg".toList))
    rw [h] at h2
    have h3 : pre ++ '-' :: (ds ++ ".jpg".toList) = (pre ++ '-' :: ds) ++ ".jpg".toList := by
      simp
    rw [h3] at h2
    have h4 := List.append_cancel_right h2
    have hm : '-' ∈ List.takeWhile Char.isDigit ((pre ++ '-' :: ds) ++ ".jpg".toList) := by
      rw [h4]; simp
    have := List.mem_takeWhile_imp hm
    exact absurd this (by decide)
  · unfold matchPageAt
    split
    · rename_i heq
      injection heq with h1 h2
      exact absurd h1 hc
    · rfl

/-- A name that ends in a dash, decimal digits and `.jpg` matches, and group 1 is the digits. -/
theorem matchPage_numbered (pre ds : Str) (hne : ds ≠ []) (hd : ∀ c ∈ ds, c.isDigit = true) :
    matchPage (pre ++ '-' :: (ds ++ ".jpg".toList)) = some ds := by
  induction pre with
  | nil =>
    show List.findSome? matchPageAt (List.tails ('-' :: (ds ++ ".jpg".toList))) = some ds
    rw [List.tails, List.findSome?, matchPageAt_digits ds hne hd]
  | cons c pre ih =>
    have h := matchPageAt_inside c pre ds
    show List.findSome? matchPageAt (List.tails (c :: (pre ++ '-' :: (ds ++ ".jpg".toList))))
      = some ds
    rw [List.tails, List.findSome?, h]
    exact ih

theorem pageNumber_eq (f : Str) : pageNumber f = (pageIndex f).map toDouble := by
  unfold pageNumber pageIndex
  cases matchPage f <;> rfl

theorem compareSlides_of_match (a b : Str) (i j : Nat) (ha : pageIndex a = some i)
    (hb : pageIndex b = some j) :
    compareSlides a b = .ok ((toDouble i).sub (toDouble j)) := by
  unfold pageIndex at ha hb
  unfold compareSlides
  cases h1 : matchPage a with
  | none => simp [h1] at ha
  | some da =>
    cases h2 : matchPage b with
    | none => simp [h2] at hb
    | some db =>
      simp only [h1, h2, Option.map_some', Option.some.injEq] at ha hb
      simp only [parseInt, ha, hb]

theorem compareSlides_ok (a b : Str) (c : Num) (h : compareSlides a b = .ok c) :
    (matchPage a).isSome = true ∧ (matchPage b).isSome = true := by
  unfold compareSlides at h
  cases h1 : matchPage a with
  | none => simp [h1] at h
  | some da =>
    cases h2 : matchPage b with
    | none => simp [h1, h2] at h
    | some db => simp

theorem pageIndex_twelve (pre : Str) :
    (twelvePages pre).map pageIndex = (List.range' 1 12).map some := by
  have key : ∀ ds : Str, ds ≠ [] → (∀ c ∈ ds, c.isDigit = true) →
      pageIndex (pre ++ "-".toList ++ ds ++ ".jpg".toList) = some (digitsValue ds) := by
    intro ds hne hd
    have := matchPage_numbered pre ds hne hd
    have e : pre ++ "-".toList ++ ds ++ ".jpg".toList = pre ++ '-' :: (ds ++ ".jpg".toList) := by
      simp
    rw [e, pageIndex, this]; rfl
  simp only [twelvePages, List.map_map]
  have hr : List.range' 1 12 = [1,2,3,4,5,6,7,8,9,10,11,12] := by decide
  rw [hr]
  have d : ∀ n : Nat, n ∈ [1,2,3,4,5,6,7,8,9,10,11,12] →
      pageIndex (pre ++ "-".toList ++ numStr n ++ ".jpg".toList) = some n := by
    intro n hn
    simp only [List.mem_cons, List.mem_singleton, List.not_mem_nil, or_false] at hn
    rcases hn with rfl | rfl | rfl | rfl | rfl | rfl | rfl | rfl | rfl | rfl | rfl | rfl <;>
      exact key _ (by decide) (by decide)
  simp only [List.map, Function.comp]
  rw [d 1 (by decide), d 2 (by decide), d 3 (by decide), d 4 (by decide), d 5 (by decide),
    d 6 (by decide), d 7 (by decide), d 8 (by decide), d 9 (by decide), d 10 (by decide),
    d 11 (by decide), d 12 (by decide)]

/-- C1, counterexample: both names of `hugeIndexListing` end in a dash, decimal digits and
`.jpg`, with the page indices `2 ^ 53 + 1` and `2 ^ 53`. `parseInt` gives the same double
for both, the comparator answers 0, and the sort keeps the listing order: the larger page
index comes first. -/
theorem huge_page_indices_keep_listing_order :
    selectSlides "slide-5".toList hugeIndexListing = hugeIndexListing ∧
    (∀ f ∈ selectSlides "slide-5".toList hugeIndexListing,
      ∃ pre ds, ds ≠ [] ∧ (∀ c ∈ ds, c.isDigit = true) ∧
        f = pre ++ '-' :: (ds ++ ".jpg".toList)) ∧
    slideImages "slide-5".toList hugeIndexListing = .ok hugeIndexListing ∧
    hugeIndexListing.map pageIndex = [some 9007199254740993, some 9007199254740992] ∧
    hugeIndexListing.map pageNumber
      = [some (.finite 9007199254740992), some (.finite 9007199254740992)] := by
  refine ⟨by decide, ?_, by decide, by decide, by decide⟩
  intro f hf
  have hsel : selectSlides "slide-5".toList hugeIndexListing
      = ["slide-5-09007199254740993.jpg".toList, "slide-5-9007199254740992.jpg".toList] := by
    decide
  rw [hsel] at hf
  simp only [List.mem_cons, List.mem_singleton, List.not_mem_nil, or_false] at hf
  rcases hf with rfl | rfl
  · exact ⟨"slide-5".toList, "09007199254740993".toList, by decide, by decide, by decide⟩
  · exact ⟨"slide-5".toList, "9007199254740992".toList, by decide, by decide, by decide⟩

/-- C1, amended: when every selected name of the directory listing ends in a dash, decimal
digits and `.jpg`, `slideImages` is a permutation of the selected names in non-decreasing
order of the number `parseInt` returns for the digits, the double nearest to their integer
value; when every page index is below `2 ^ 53` that is non-decreasing order of the numeric
page index itself; in particular the names `pre-1.jpg`, ..., `pre-12.jpg`, listed in any
order, come out as pages 1, 2, ..., 12. -/
theorem slideImages_sorted_by_page_number (base : Str) (files : List Str)
    (h : ∀ f ∈ selectSlides base files, ∃ pre ds, ds ≠ [] ∧ (∀ c ∈ ds, c.isDigit = true) ∧
      f = pre ++ '-' :: (ds ++ ".jpg".toList)) :
    ∃ imgs, slideImages base files = .ok imgs ∧ imgs.Perm (selectSlides base files) ∧
      imgs.Pairwise (fun a b => ∃ x y, pageNumber a = some x ∧ pageNumber b = some y ∧ x.le y) ∧
      ((∀ f ∈ selectSlides base files, ∀ i, pageIndex f = some i → i < 2 ^ 53) →
        imgs.Pairwise
          (fun a b => ∃ i j, pageIndex a = some i ∧ pageIndex b = some j ∧ i ≤ j)) ∧
      (∀ pre ds, ds ≠ [] → (∀ c ∈ ds, c.isDigit = true) →
        pageIndex (pre ++ '-' :: (ds ++ ".jpg".toList)) = some (digitsValue ds) ∧
        pageNumber (pre ++ '-' :: (ds ++ ".jpg".toList)) = some (toDouble (digitsValue ds))) ∧
      ∀ pre, (selectSlides base files).Perm (twelvePages pre) → imgs = twelvePages pre := by
  have hnum : ∀ pre ds, ds ≠ [] → (∀ c ∈ ds, c.isDigit = true) →
      pageIndex (pre ++ '-' :: (ds ++ ".jpg".toList)) = some (digitsValue ds) ∧
      pageNumber (pre ++ '-' :: (ds ++ ".jpg".toList)) = some (toDouble (digitsValue ds)) := by
    intro pre ds hne hd
    have hi : pageIndex (pre ++ '-' :: (ds ++ ".jpg".toList)) = some (digitsValue ds) := by
      rw [pageIndex, matchPage_numbered pre ds hne hd]; rfl
    exact ⟨hi, by rw [pageNumber_eq, hi]; rfl⟩
  have hidx : ∀ f ∈ selectSlides base files, ∃ i, pageIndex f = some i := by
    intro f hf
    obtain ⟨pre, ds, hne, hd, rfl⟩ := h f hf
    exact ⟨digitsValue ds, (hnum pre ds hne hd).1⟩
  let key : Str → Int := fun f => ((pageIndex f).map (fun i => (toDouble i).rank)).getD 0
  have hkey : ∀ f i, pageIndex f = some i → key f = (toDouble i).rank := by
    intro f i hi
    simp [key, hi]
  have hcmp : ∀ a ∈ selectSlides base files, ∀ b ∈ selectSlides base files,
      ∃ c, compareSlides a b = .ok c ∧ (c.isNegative = true ↔ key a < key b) := by
    intro a ha b hb
    obtain ⟨i, hi⟩ := hidx a ha
    obtain ⟨j, hj⟩ := hidx b hb
    refine ⟨_, compareSlides_of_match a b i j hi hj, ?_⟩
    rw [hkey a i hi, hkey b j hj]
    exact sub_isNegative i j
  obtain ⟨r, hr, hp, hs⟩ := jsSort_spec compareSlides key (selectSlides base files) hcmp
  refine ⟨r, hr, hp, ?_, ?_, hnum, ?_⟩
  · refine List.Pairwise.imp_of_mem ?_ hs
    intro a b ha hb hab
    obtain ⟨i, hi⟩ := hidx a (hp.subset ha)
    obtain ⟨j, hj⟩ := hidx b (hp.subset hb)
    refine ⟨toDouble i, toDouble j, by rw [pageNumber_eq, hi]; rfl,
      by rw [pageNumber_eq, hj]; rfl, ?_⟩
    rw [hkey a i hi, hkey b j hj] at hab
    exact le_of_rank_le i j hab
  · intro hsmall
    refine List.Pairwise.imp_of_mem ?_ hs
    intro a b ha hb hab
    obtain ⟨i, hi⟩ := hidx a (hp.subset ha)
    obtain ⟨j, hj⟩ := hidx b (hp.subset hb)
    refine ⟨i, j, hi, hj, ?_⟩
    rw [hkey a i hi, hkey b j hj, toDouble_of_lt i (hsmall a (hp.subset ha) i hi),
      toDouble_of_lt j (hsmall b (hp.subset hb) j hj)] at hab
    simp only [Num.rank] at hab
    exact_mod_cast hab
  · intro pre hpre
    have hkeys : (twelvePages pre).map key = [1, 2, 3, 4, 5, 6, 7, 8, 9, 10, 11, 12] := by
      have h12 := pageIndex_twelve pre
      have : (twelvePages pre).map key
          = ((twelvePages pre).map pageIndex).map
              (fun o => (o.map (fun i => (toDouble i).rank)).getD 0) := by
        simp [key, List.map_map]
      rw [this, h12]
      decide
    have hperm : r.Perm (twelvePages pre) := hp.trans hpre
    have hlt12 : (twelvePages pre).Pairwise (fun a b => key a < key b) := by
      have : ((twelvePages pre).map key).Pairwise (fun x y => x < y) := by
        rw [hkeys]; decide
      exact List.pairwise_map.1 this
    have hnd : (r.map key).Nodup := by
      have : (r.map key).Perm ((twelvePages pre).map key) := hperm.map key
      refine this.nodup_iff.2 ?_
      rw [hkeys]; decide
    have hne : r.Pairwise (fun a b => key a ≠ key b) := List.pairwise_map.1 hnd
    have hlt : r.Pairwise (fun a b => key a < key b) :=
      (hs.and hne).imp (fun hab => lt_of_le_of_ne hab.1 hab.2)
    haveI : IsAntisymm Str (fun a b => key a < key b) :=
      ⟨fun a b h1 h2 => absurd h1 (not_lt_of_lt h2)⟩
    exact List.eq_of_perm_of_sorted hperm hlt hlt12

/-- C1, amended, at `c1Listing`: the result is pages 1, 2, 10, in order of page index. -/
theorem slideImages_sorted_by_page_number_witness :
    slideImages "slide-7".toList c1Listing
      = .ok ["slide-7-1.jpg".toList, "slide-7-2.jpg".toList, "slide-7-10.jpg".toList] ∧
    ∃ imgs, slideImages "slide-7".toList c1Listing = .ok imgs ∧
      imgs.Pairwise
        (fun a b => ∃ i j, pageIndex a = some i ∧ pageIndex b = some j ∧ i ≤ j) := by
  have hsel : selectSlides "slide-7".toList c1Listing
      = ["slide-7-10.jpg".toList, "slide-7-2.jpg".toList, "slide-7-1.jpg".toList] := by
    decide
  obtain ⟨imgs, h1, -, -, h4, -, -⟩ :=
    slideImages_sorted_by_page_number "slide-7".toList c1Listing (by
      intro f hf
      rw [hsel] at hf
      simp only [List.mem_cons, List.mem_singleton, List.not_mem_nil, or_false] at hf
      rcases hf with rfl | rfl | rfl
      · exact ⟨"slide-7".toList, "10".toList, by decide, by decide, by decide⟩
      · exact ⟨"slide-7".toList, "2".toList, by decide, by decide, by decide⟩
      · exact ⟨"slide-7".toList, "1".toList, by decide, by decide, by decide⟩)
  refine ⟨by decide, imgs, h1, h4 ?_⟩
  intro f hf i hi
  rw [hsel] at hf
  simp only [List.mem_cons, List.mem_singleton, List.not_mem_nil, or_false] at hf
  have h53 : (10 : Nat) < 2 ^ 53 := by norm_num
  rcases hf with rfl | rfl | rfl
  · have : pageIndex "slide-7-10.jpg".toList = some 10 := by decide
    rw [this] at hi
    injection hi with hi
    omega
  · have : pageIndex "slide-7-2.jpg".toList = some 2 := by decide
    rw [this] at hi
    injection hi with hi
    omega
  · have : pageIndex "slide-7-1.jpg".toList = some 1 := by decide
    rw [this] at hi
    injection hi with hi
    omega

/-- C2: the deck layout is derived once, from the first image of `slideImages`, as pixel
width / 150 by pixel height / 150; every slide of the deck, whatever the pixel size of its
own image, carries its image at x = 0, y = 0 with exactly that width and height; and a first
image of 1650 by 1275 pixels gives 11 by 8.5. -/
theorem deck_layout_from_first_image (outDir : Str)
    (imageSize : Str → Except Thrown Dimensions) (first : Str) (rest : List Str)
    (d : Dimensions) (h : imageSize (join outDir first) = .ok d) :
    ∃ pres, buildPresentation outDir imageSize (first :: rest) = .ok pres ∧
      pres.width = (d.width : ℚ) / 150 ∧ pres.height = (d.height : ℚ) / 150 ∧
      pres.slides.map (fun s => s.path) = (first :: rest).map (fun img => join outDir img) ∧
      (∀ s ∈ pres.slides, s.x = 0 ∧ s.y = 0 ∧ s.w = pres.width ∧ s.h = pres.height) ∧
      (d = ⟨1650, 1275⟩ → pres.width = 11 ∧ pres.height = 17 / 2) := by
  have hb : buildPresentation outDir imageSize (first :: rest) = .ok
      { layout := "PDF_SIZE".toList, width := (d.width : ℚ) / 150,
        height := (d.height : ℚ) / 150,
        slides := (first :: rest).map (fun img =>
          { path := join outDir img, x := 0, y := 0, w := (d.width : ℚ) / 150,
            h := (d.height : ℚ) / 150 }) } := by
    simp only [buildPresentation, h]
  refine ⟨_, hb, ?_, ?_, ?_, ?_, ?_⟩
  · rfl
  · rfl
  · simp [List.map_map, Function.comp]
  · intro s hs
    simp only [List.mem_map, List.map_cons, List.mem_cons] at hs
    rcases hs with rfl | ⟨img, -, rfl⟩ <;> simp
  · rintro rfl
    constructor <;> norm_num

/-- C2 at a deck of two images, the first 1650 by 1275 pixels, the second 800 by 600. -/
theorem deck_layout_from_first_image_witness :
    ∃ pres, buildPresentation "/app/outputs".toList c2ImageSize
        ["slide-7-1.jpg".toList, "slide-7-2.jpg".toList] = .ok pres ∧
      pres.width = ((1650 : Nat) : ℚ) / 150 ∧ pres.height = ((1275 : Nat) : ℚ) / 150 ∧
      pres.slides.map (fun s => s.path)
        = ["slide-7-1.jpg".toList, "slide-7-2.jpg".toList].map
            (fun img => join "/app/outputs".toList img) ∧
      (∀ s ∈ pres.slides, s.x = 0 ∧ s.y = 0 ∧ s.w = pres.width ∧ s.h = pres.height) ∧
      ((⟨1650, 1275⟩ : Dimensions) = ⟨1650, 1275⟩ → pres.width = 11 ∧ pres.height = 17 / 2) :=
  deck_layout_from_first_image "/app/outputs".toList c2ImageSize "slide-7-1.jpg".toList
    ["slide-7-2.jpg".toList] ⟨1650, 1275⟩ (by decide)

/-! ## Filesystem lemmas -/

theorem tryUnlinkAll_subset (ps : List Str) (fs : FS) (p : Str)
    (h : p ∈ tryUnlinkAll fs ps) : p ∈ fs := by
  induction ps generalizing fs with
  | nil => exact h
  | cons a ps ih =>
    unfold tryUnlinkAll unlinkSync at h
    by_cases ha : a ∈ fs
    · simp only [ha, if_true] at h
      exact (List.mem_filter.1 (ih _ h)).1
    · simpa only [ha, if_false] using h

theorem not_mem_tryUnlinkAll_head (a : Str) (ps : List Str) (fs : FS) :
    a ∉ tryUnlinkAll fs (a :: ps) := by
  intro h
  unfold tryUnlinkAll unlinkSync at h
  by_cases ha : a ∈ fs
  · simp only [ha, if_true] at h
    have := (List.mem_filter.1 (tryUnlinkAll_subset ps _ a h)).2
    simp at this
  · simp only [ha, if_false] at h

theorem not_mem_tryUnlinkAll_second (a b : Str) (fs : FS) (ha : a ∈ fs) :
    b ∉ tryUnlinkAll fs [a, b] := by
  intro h
  unfold tryUnlinkAll unlinkSync at h
  simp only [ha, if_true] at h
  exact not_mem_tryUnlinkAll_head b [] _ h

theorem mem_rmSync (fs : FS) (dir p : Str) :
    p ∈ rmSync fs dir ↔ p ∈ fs ∧ underDir dir p = false := by
  simp [rmSync, List.mem_filter]

theorem renameSync_ok (fs fs0 : FS) (src dst : Str) (h : renameSync fs src dst = .ok fs0) :
    fs0 = dst :: fs.filter (fun q => q ≠ src ∧ q ≠ dst) := by
  unfold renameSync at h
  by_cases hs : src ∈ fs
  · by_cases hl : nameMax < utf8Length (basename dst)
    · simp [hs, hl] at h
    · simp only [hs, hl, if_true, if_false, Except.ok.injEq] at h
      exact h.symm
  · simp [hs] at h

/-! ## Cleanup of the single-tool routes -/

theorem scriptCallback_input_gone (inputPath outputPath outputFilename : Str)
    (out : ExecResult) (fs1 : FS) :
    inputPath ∉ (scriptCallback inputPath outputPath outputFilename out fs1).2 := by
  have h0 := not_mem_tryUnlinkAll_head inputPath [] fs1
  unfold scriptCallback
  dsimp only
  generalize (out.error.isSome || includes out.stdout "ERROR".toList) = b
  generalize existsSync (tryUnlinkAll fs1 [inputPath]) outputPath = x
  cases b <;> cases x <;> simp only [if_true, if_false, Bool.false_eq_true]
  · exact h0
  · exact fun h => h0 (tryUnlinkAll_subset _ _ _ h)
  · exact h0
  · exact h0

theorem scriptCallback_delivered_gone (inputPath outputPath outputFilename : Str)
    (out : ExecResult) (fs1 : FS) (p : Str) (n : Option Str)
    (h : (scriptCallback inputPath outputPath outputFilename out fs1).1 = .download p n) :
    p ∉ (scriptCallback inputPath outputPath outputFilename out fs1).2 := by
  unfold scriptCallback at h ⊢
  dsimp only at h ⊢
  generalize (out.error.isSome || includes out.stdout "ERROR".toList) = b at h ⊢
  generalize existsSync (tryUnlinkAll fs1 [inputPath]) outputPath = x at h ⊢
  cases b <;> cases x <;>
    simp only [if_true, if_false, Bool.false_eq_true, Response.download.injEq,
      reduceCtorEq] at h ⊢
  rw [← h.1]
  exact not_mem_tryUnlinkAll_head _ _ _

theorem compressCallback_input_gone (env : Env) (statSize : Str → Nat) (now : Nat)
    (file : UploadedFile) (out : ExecResult) (fs1 : FS) :
    resolve env.cwd file.path ∉ (compressCallback env statSize now file out fs1).2 := by
  have h0 := not_mem_tryUnlinkAll_head (resolve env.cwd file.path) [] fs1
  unfold compressCallback
  cases out.error with
  | some e => exact h0
  | none =>
    by_cases h2 : existsSync (tryUnlinkAll fs1 [resolve env.cwd file.path])
        (compressOutputPath env now) = true
    · simpa only [h2, if_true] using h0
    · simpa only [h2, if_false] using h0

theorem compressCallback_keeps_output (env : Env) (statSize : Str → Nat) (now : Nat)
    (file : UploadedFile) (out : ExecResult) (fs1 : FS)
    (h : (compressCallback env statSize now file out fs1).1.isSuccess = true) :
    compressOutputPath env now ∈ (compressCallback env statSize now file out fs1).2 := by
  unfold compressCallback at h ⊢
  cases he : out.error with
  | some e => simp [he, Response.isSuccess] at h
  | none =>
    by_cases h2 : existsSync (tryUnlinkAll fs1 [resolve env.cwd file.path])
        (compressOutputPath env now) = true
    · simp only [h2, if_true]
      simpa [existsSync] using h2
    · simp [he, h2, Response.isSuccess] at h

theorem protectCallback_input_gone (inputPath outputPath : Str) (out : ExecResult) (fs1 : FS) :
    inputPath ∉ (protectCallback inputPath outputPath out fs1).2 := by
  have h0 := not_mem_tryUnlinkAll_head inputPath [] fs1
  unfold protectCallback
  cases out.error with
  | some e => exact h0
  | none =>
    by_cases h2 : existsSync (tryUnlinkAll fs1 [inputPath]) outputPath = true
    · simp only [h2, if_true]
      exact fun h => h0 (tryUnlinkAll_subset _ _ _ h)
    · simpa only [h2, if_false] using h0

theorem protectCallback_delivered_gone (inputPath outputPath : Str) (out : ExecResult)
    (fs1 : FS) (p : Str) (n : Option Str)
    (h : (protectCallback inputPath outputPath out fs1).1 = .download p n) :
    p ∉ (protectCallback inputPath outputPath out fs1).2 := by
  unfold protectCallback at h ⊢
  cases he : out.error with
  | some e => simp [he] at h
  | none =>
    by_cases h2 : existsSync (tryUnlinkAll fs1 [inputPath]) outputPath = true
    · simp only [he, h2, if_true, Response.download.injEq] at h ⊢
      rw [← h.1]
      exact not_mem_tryUnlinkAll_head _ _ _
    · simp [he, h2] at h

theorem unlockCallback_input_gone (inputPath outputPath : Str) (out : ExecResult) (fs1 : FS) :
    inputPath ∉ (unlockCallback inputPath outputPath out fs1).2 := by
  have h0 := not_mem_tryUnlinkAll_head inputPath [] fs1
  unfold unlockCallback
  cases out.error with
  | some e =>
    simp only
    split
    · exact h0
    · exact h0
  | none =>
    by_cases h2 : existsSync (tryUnlinkAll fs1 [inputPath]) outputPath = true
    · simp only [h2, if_true]
      exact fun h => h0 (tryUnlinkAll_subset _ _ _ h)
    · simpa only [h2, if_false] using h0

theorem unlockCallback_delivered_gone (inputPath outputPath : Str) (out : ExecResult)
    (fs1 : FS) (p : Str) (n : Option Str)
    (h : (unlockCallback inputPath outputPath out fs1).1 = .download p n) :
    p ∉ (unlockCallback inputPath outputPath out fs1).2 := by
  unfold unlockCallback at h ⊢
  cases he : out.error with
  | some e =>
    simp only [he] at h
    split at h <;> simp at h
  | none =>
    by_cases h2 : existsSync (tryUnlinkAll fs1 [inputPath]) outputPath = true
    · simp only [he, h2, if_true, Response.download.injEq] at h ⊢
      rw [← h.1]
      exact not_mem_tryUnlinkAll_head _ _ _
    · simp [he, h2] at h

/-! ## Cleanup of the office-to-PDF routes -/

theorem officeJobClean_of (env : Env) (now : Nat) (file : UploadedFile) (fs fs0 fs1 fs' : FS)
    (h0 : renameSync fs (resolve env.cwd file.path) (inputPathWithExt env file) = .ok fs0)
    (hW : ConverterBehaves env now file fs0 fs1)
    (hsub : ∀ p ∈ fs', p ∈ rmSync fs1 (uniqueProfileDir env now))
    (hst : inputPathWithExt env file ∉ fs') (hgen : generatedFile env file ∉ fs') :
    OfficeJobClean env now file fs' := by
  refine ⟨?_, hst, hgen, fun p hp => ((mem_rmSync _ _ _).1 (hsub p hp)).2⟩
  intro hip
  have h2 := (mem_rmSync _ _ _).1 (hsub _ hip)
  rcases hW.2 _ h2.1 with h | h | h
  · rw [renameSync_ok _ _ _ _ h0] at h
    rcases List.mem_cons.1 h with h | h
    · exact hst (h ▸ hip)
    · have := (List.mem_filter.1 h).2
      simp at this
  · exact hgen (h ▸ hip)
  · rw [h2.2] at h
    exact Bool.noConfusion h

theorem staged_mem_after_rmSync (env : Env) (now : Nat) (file : UploadedFile) (fs0 fs1 : FS)
    (hW : ConverterBehaves env now file fs0 fs1)
    (hd : underDir (uniqueProfileDir env now) (inputPathWithExt env file) = false) :
    inputPathWithExt env file ∈ rmSync fs1 (uniqueProfileDir env now) :=
  (mem_rmSync _ _ _).2 ⟨hW.1, hd⟩

theorem excelToPdfCallback_profile_gone (env : Env) (now : Nat) (file : UploadedFile)
    (out : ExecResult) (fs1 : FS) :
    ∀ p ∈ (excelToPdfCallback env now file out fs1).2,
      p ∈ rmSync fs1 (uniqueProfileDir env now) := by
  intro p hp
  unfold excelToPdfCallback at hp
  dsimp only at hp
  generalize existsSync (rmSync fs1 (uniqueProfileDir env now)) (generatedFile env file) = x at hp
  generalize out.error = oe at hp
  cases oe <;> cases x <;>
    simp only [if_true, if_false, Bool.false_eq_true] at hp
  · exact hp
  · exact tryUnlinkAll_subset _ _ _ hp
  · exact tryUnlinkAll_subset _ _ _ hp
  · exact tryUnlinkAll_subset _ _ _ hp

theorem pptxToPdfCallback_profile_gone (env : Env) (now : Nat) (file : UploadedFile)
    (out : ExecResult) (fs1 : FS) :
    ∀ p ∈ (pptxToPdfCallback env now file out fs1).2,
      p ∈ rmSync fs1 (uniqueProfileDir env now) := by
  intro p hp
  unfold pptxToPdfCallback at hp
  dsimp only at hp
  generalize existsSync (rmSync fs1 (uniqueProfileDir env now)) (generatedFile env file) = x at hp
  generalize out.error = oe at hp
  cases oe <;> cases x <;>
    simp only [if_true, if_false, Bool.false_eq_true] at hp
  · exact hp
  · exact tryUnlinkAll_subset _ _ _ hp
  · exact tryUnlinkAll_subset _ _ _ hp
  · exact tryUnlinkAll_subset _ _ _ hp

theorem convertCallback_profile_gone (env : Env) (now : Nat) (file : UploadedFile)
    (out : ExecResult) (fs1 : FS) :
    ∀ p ∈ (convertCallback env now file out fs1).2,
      p ∈ rmSync fs1 (uniqueProfileDir env now) := by
  intro p hp
  unfold convertCallback at hp
  dsimp only at hp
  generalize existsSync (rmSync fs1 (uniqueProfileDir env now)) (generatedFile env file) = x at hp
  generalize out.error = oe at hp
  cases oe <;> cases x <;>
    simp only [if_true, if_false, Bool.false_eq_true] at hp <;>
    exact tryUnlinkAll_subset _ _ _ hp

theorem excelToPdfCallback_clean (env : Env) (now : Nat) (file : UploadedFile)
    (out : ExecResult) (fs fs0 fs1 : FS)
    (h0 : renameSync fs (resolve env.cwd file.path) (inputPathWithExt env file) = .ok fs0)
    (hd : underDir (uniqueProfileDir env now) (inputPathWithExt env file) = false)
    (hW : ConverterBehaves env now file fs0 fs1) :
    (out.error ≠ none → generatedFile env file ∉ fs1 →
      OfficeJobClean env now file (excelToPdfCallback env now file out fs1).2) ∧
    ((excelToPdfCallback env now file out fs1).1.isSuccess = true →
      OfficeJobClean env now file (excelToPdfCallback env now file out fs1).2) := by
  have hsub := excelToPdfCallback_profile_gone env now file out fs1
  have hstaged := staged_mem_after_rmSync env now file fs0 fs1 hW hd
  constructor
  · intro he hg
    refine officeJobClean_of env now file fs fs0 fs1 _ h0 hW hsub ?_
      (fun h => hg ((mem_rmSync _ _ _).1 (hsub _ h)).1)
    unfold excelToPdfCallback
    cases hx : out.error with
    | none => exact absurd hx he
    | some e => exact not_mem_tryUnlinkAll_head _ _ _
  · intro hs
    refine officeJobClean_of env now file fs fs0 fs1 _ h0 hW hsub ?_ ?_ <;>
    · unfold excelToPdfCallback at hs ⊢
      dsimp only at hs ⊢
      generalize hx : existsSync (rmSync fs1 (uniqueProfileDir env now))
        (generatedFile env file) = x at hs ⊢
      generalize out.error = oe at hs ⊢
      cases oe <;> cases x <;>
        simp only [if_true, if_false, Bool.false_eq_true, Response.isSuccess] at hs ⊢
      first
        | exact not_mem_tryUnlinkAll_head _ _ _
        | exact not_mem_tryUnlinkAll_second _ _ _ hstaged

theorem pptxToPdfCallback_clean (env : Env) (now : Nat) (file : UploadedFile)
    (out : ExecResult) (fs fs0 fs1 : FS)
    (h0 : renameSync fs (resolve env.cwd file.path) (inputPathWithExt env file) = .ok fs0)
    (hd : underDir (uniqueProfileDir env now) (inputPathWithExt env file) = false)
    (hW : ConverterBehaves env now file fs0 fs1) :
    (out.error ≠ none → generatedFile env file ∉ fs1 →
      OfficeJobClean env now file (pptxToPdfCallback env now file out fs1).2) ∧
    ((pptxToPdfCallback env now file out fs1).1.isSuccess = true →
      OfficeJobClean env now file (pptxToPdfCallback env now file out fs1).2) := by
  have hsub := pptxToPdfCallback_profile_gone env now file out fs1
  have hstaged := staged_mem_after_rmSync env now file fs0 fs1 hW hd
  constructor
  · intro he hg
    refine officeJobClean_of env now file fs fs0 fs1 _ h0 hW hsub ?_
      (fun h => hg ((mem_rmSync _ _ _).1 (hsub _ h)).1)
    unfold pptxToPdfCallback
    cases hx : out.error with
    | none => exact absurd hx he
    | some e => exact not_mem_tryUnlinkAll_head _ _ _
  · intro hs
    refine officeJobClean_of env now file fs fs0 fs1 _ h0 hW hsub ?_ ?_ <;>
    · unfold pptxToPdfCallback at hs ⊢
      dsimp only at hs ⊢
      generalize hx : existsSync (rmSync fs1 (uniqueProfileDir env now))
        (generatedFile env file) = x at hs ⊢
      generalize out.error = oe at hs ⊢
      cases oe <;> cases x <;>
        simp only [if_true, if_false, Bool.false_eq_true, Response.isSuccess] at hs ⊢
      first
        | exact not_mem_tryUnlinkAll_head _ _ _
        | exact not_mem_tryUnlinkAll_second _ _ _ hstaged

theorem convertCallback_clean (env : Env) (now : Nat) (file : UploadedFile)
    (out : ExecResult) (fs fs0 fs1 : FS)
    (h0 : renameSync fs (resolve env.cwd file.path) (inputPathWithExt env file) = .ok fs0)
    (hd : underDir (uniqueProfileDir env now) (inputPathWithExt env file) = false)
    (hW : ConverterBehaves env now file fs0 fs1) :
    (out.error ≠ none → generatedFile env file ∉ fs1 →
      OfficeJobClean env now file (convertCallback env now file out fs1).2) ∧
    (out.error = none →
      OfficeJobClean env now file (convertCallback env now file out fs1).2) := by
  have hsub := convertCallback_profile_gone env now file out fs1
  have hstaged := staged_mem_after_rmSync env now file fs0 fs1 hW hd
  constructor
  · intro he hg
    refine officeJobClean_of env now file fs fs0 fs1 _ h0 hW hsub ?_
      (fun h => hg ((mem_rmSync _ _ _).1 (hsub _ h)).1)
    unfold convertCallback
    cases hx : out.error with
    | none => exact absurd hx he
    | some e => exact not_mem_tryUnlinkAll_head _ _ _
  · intro he
    refine officeJobClean_of env now file fs fs0 fs1 _ h0 hW hsub ?_ ?_
    · unfold convertCallback
      dsimp only
      generalize existsSync (rmSync fs1 (uniqueProfileDir env now))
        (generatedFile env file) = x
      rw [he]
      cases x <;> simp only [if_true, if_false, Bool.false_eq_true] <;>
        exact not_mem_tryUnlinkAll_head _ _ _
    · unfold convertCallback
      dsimp only
      rw [he]
      by_cases hx : existsSync (rmSync fs1 (uniqueProfileDir env now))
        (generatedFile env file) = true
      · simp only [hx, if_true]
        exact not_mem_tryUnlinkAll_second _ _ _ hstaged
      · simp only [hx, if_false, Bool.false_eq_true]
        intro hg
        have := tryUnlinkAll_subset _ _ _ hg
        exact hx (by simpa [existsSync] using this)

/-! ## Success responses and the output file -/

/-- The exec callbacks that check `fs.existsSync` answer with a success only when the tool
reported no error and the output exists, and with a 5xx failure when the tool reported no
error but the output is missing. -/
theorem callbacks_check_output (env : Env) (statSize : Str → Nat) (now : Nat)
    (file : UploadedFile) (inputPath outputPath outputFilename : Str) (out : ExecResult)
    (fs1 : FS) :
    ((compressCallback env statSize now file out fs1).1.isSuccess = true →
        out.error = none ∧ existsSync (tryUnlinkAll fs1 [resolve env.cwd file.path])
          (compressOutputPath env now) = true)
    ∧ ((excelToPdfCallback env now file out fs1).1.isSuccess = true →
        out.error = none ∧ existsSync (rmSync fs1 (uniqueProfileDir env now))
          (generatedFile env file) = true)
    ∧ ((pptxToPdfCallback env now file out fs1).1.isSuccess = true →
        out.error = none ∧ existsSync (rmSync fs1 (uniqueProfileDir env now))
          (generatedFile env file) = true)
    ∧ ((convertCallback env now file out fs1).1.isSuccess = true →
        out.error = none ∧ existsSync (rmSync fs1 (uniqueProfileDir env now))
          (generatedFile env file) = true)
    ∧ ((scriptCallback inputPath outputPath outputFilename out fs1).1.isSuccess = true →
        out.error = none ∧ existsSync (tryUnlinkAll fs1 [inputPath]) outputPath = true)
    ∧ ((protectCallback inputPath outputPath out fs1).1.isSuccess = true →
        out.error = none ∧ existsSync (tryUnlinkAll fs1 [inputPath]) outputPath = true)
    ∧ ((unlockCallback inputPath outputPath out fs1).1.isSuccess = true →
        out.error = none ∧ existsSync (tryUnlinkAll fs1 [inputPath]) outputPath = true)
    ∧ (out.error = none →
        (existsSync (tryUnlinkAll fs1 [resolve env.cwd file.path])
            (compressOutputPath env now) = false →
          (compressCallback env statSize now file out fs1).1.isServerError = true)
        ∧ (existsSync (rmSync fs1 (uniqueProfileDir env now)) (generatedFile env file) = false →
          (excelToPdfCallback env now file out fs1).1.isServerError = true
          ∧ (pptxToPdfCallback env now file out fs1).1.isServerError = true
          ∧ (convertCallback env now file out fs1).1.isServerError = true)
        ∧ (existsSync (tryUnlinkAll fs1 [inputPath]) outputPath = false →
          (scriptCallback inputPath outputPath outputFilename out fs1).1.isServerError = true
          ∧ (protectCallback inputPath outputPath out fs1).1.isServerError = true
          ∧ (unlockCallback inputPath outputPath out fs1).1.isServerError = true)) := by
  unfold compressCallback excelToPdfCallback pptxToPdfCallback convertCallback scriptCallback
    protectCallback unlockCallback
  dsimp only
  generalize existsSync (tryUnlinkAll fs1 [resolve env.cwd file.path])
    (compressOutputPath env now) = x1
  generalize existsSync (rmSync fs1 (uniqueProfileDir env now)) (generatedFile env file) = x2
  generalize existsSync (tryUnlinkAll fs1 [inputPath]) outputPath = x3
  generalize includes out.stdout "ERROR".toList = b
  generalize (!out.stderr.isEmpty && includes out.stderr "invalid password".toList) = c
  generalize out.error = oe
  cases oe with
  | none =>
    cases x1 <;> cases x2 <;> cases x3 <;> cases b <;>
      simp [Response.isSuccess, Response.isServerError, Response.status]
  | some e =>
    cases x1 <;> cases x2 <;> cases x3 <;> cases b <;> cases c <;>
      by_cases hc : e.code = .exit 2 <;>
      simp [Response.isSuccess, Response.isServerError, Response.status, hc]

/-- C4 at the failing input: the rasterizer succeeds with one page image, `writeFile`
resolves without a file at the output path, and `/pdf-to-pptx` hands the missing output
path to `res.download` instead of answering with a 5xx failure. -/
theorem pdfToPptx_downloads_missing_output :
    (rasterizerOk (popplerCommand appEnv 5 ⟨"uploads/ab12".toList, "report.pdf".toList⟩)
        uploadedFs).1.error = none ∧
    existsSync (rasterizerOk (popplerCommand appEnv 5
        ⟨"uploads/ab12".toList, "report.pdf".toList⟩) uploadedFs).2
      (pptxOutputPath appEnv 4) = false ∧
    pdfToPptx appEnv rasterizerOk imageOk writeFileSilent 4 5 pdfUpload uploadedFs
      = (.download "/app/outputs/presentation-4.pptx".toList none,
          ["/app/outputs/slide-5-1.jpg".toList]) ∧
    (pdfToPptx appEnv rasterizerOk imageOk writeFileSilent 4 5 pdfUpload uploadedFs).1.isSuccess
      = true ∧
    (pdfToPptx appEnv rasterizerOk imageOk writeFileSilent 4 5 pdfUpload
      uploadedFs).1.isServerError = false := by
  refine ⟨rfl, by decide, by decide, by decide, by decide⟩

/-! ## Substring search -/

/-- The model of `includes` is the substring relation. -/
theorem includes_iff (s p : Str) : includes s p = true ↔ p <:+: s := by
  unfold includes
  rw [List.any_eq_true]
  constructor
  · rintro ⟨t, ht, hp⟩
    exact List.infix_iff_prefix_suffix.2
      ⟨t, List.isPrefixOf_iff_prefix.1 hp, (List.mem_tails _ _).1 ht⟩
  · intro h
    obtain ⟨t, hp, hs⟩ := List.infix_iff_prefix_suffix.1 h
    exact ⟨t, (List.mem_tails _ _).2 hs, List.isPrefixOf_iff_prefix.2 hp⟩

theorem includes_nil (p : Str) (hp : p ≠ []) : includes [] p = false := by
  cases p with
  | nil => exact absurd rfl hp
  | cons c cs => rfl

/-! ## The failure branch of `/unlock-pdf` -/

/-- C5, counterexample: a decryption that fails on a damaged file, with exit status 2 and
no `invalid password` on `stderr`, is answered 401 `Incorrect password`, not 500. -/
theorem unlock_damaged_file_reported_as_wrong_password :
    ¬ ("invalid password".toList <:+: (damagedRun [] []).1.stderr) ∧
    unlockPdf appEnv damagedRun 5 unlockUpload uploadedFs
      = (.send 401 "Incorrect password. Please try again.".toList, []) := by
  refine ⟨?_, by decide⟩
  rw [← includes_iff]
  decide

/-- C5, amended: a failed `/unlock-pdf` run is answered 401 `Incorrect password` exactly
when `stderr` contains `invalid password` or the exit status is 2, and 500
`Failed to unlock PDF.` otherwise. -/
theorem unlock_failure_classification (env : Env) (exec : Exec) (now : Nat) (req : Request)
    (file : UploadedFile) (fs : FS) (e : ExecError) (hfile : req.file = some file)
    (hpw : truthy req.body.password = true)
    (herr : (exec (unlockCommand env (escapeQuotes (req.body.password.getD []))
      (resolve env.cwd file.path) (unlockOutputPath env now)) fs).1.error = some e) :
    (("invalid password".toList <:+: (exec (unlockCommand env
          (escapeQuotes (req.body.password.getD [])) (resolve env.cwd file.path)
          (unlockOutputPath env now)) fs).1.stderr ∨ e.code = .exit 2) →
      (unlockPdf env exec now req fs).1
        = .send 401 "Incorrect password. Please try again.".toList)
    ∧ ((¬ "invalid password".toList <:+: (exec (unlockCommand env
          (escapeQuotes (req.body.password.getD [])) (resolve env.cwd file.path)
          (unlockOutputPath env now)) fs).1.stderr ∧ e.code ≠ .exit 2) →
      (unlockPdf env exec now req fs).1 = .send 500 "Failed to unlock PDF.".toList) := by
  simp only [unlockPdf, hfile, hpw, Bool.not_true, Bool.false_eq_true, if_false,
    unlockCallback, herr]
  generalize (exec (unlockCommand env (escapeQuotes (req.body.password.getD []))
    (resolve env.cwd file.path) (unlockOutputPath env now)) fs).1.stderr = stderr
  rw [← includes_iff]
  have hemp : stderr.isEmpty = true → includes stderr "invalid password".toList = false := by
    intro h
    have : stderr = [] := by simpa using h
    subst this
    exact includes_nil _ (by decide)
  generalize includes stderr "invalid password".toList = b at hemp ⊢
  generalize stderr.isEmpty = q at hemp ⊢
  by_cases hc : e.code = .exit 2 <;> cases b <;> cases q <;> simp [hc] at hemp ⊢

/-- C5, amended, run on a wrong-password failure: the answer is 401. -/
theorem unlock_failure_classification_witness :
    (unlockPdf appEnv wrongPasswordRun 5 unlockUpload uploadedFs).1
      = .send 401 "Incorrect password. Please try again.".toList :=
  (unlock_failure_classification appEnv wrongPasswordRun 5 unlockUpload
    ⟨"uploads/ab12".toList, "locked.pdf".toList⟩ uploadedFs ⟨.exit 2⟩ rfl rfl rfl).1
    (Or.inr rfl)

/-! ## The `ERROR` marker of the script routes -/

theorem scriptCallback_marker (inputPath outputPath outputFilename : Str) (out : ExecResult)
    (fs1 : FS) :
    ("ERROR".toList <:+: out.stdout →
      (scriptCallback inputPath outputPath outputFilename out fs1).1
        = .send 500 "Conversion failed.".toList)
    ∧ ∀ p n, (scriptCallback inputPath outputPath outputFilename out fs1).1 = .download p n →
        out.error = none ∧ ¬ "ERROR".toList <:+: out.stdout ∧ p = outputPath
          ∧ existsSync fs1 outputPath = true := by
  rw [← includes_iff]
  unfold scriptCallback
  dsimp only
  constructor
  · intro h
    rw [h, Bool.or_true, if_pos rfl]
  · intro p n h
    by_cases hx : existsSync (tryUnlinkAll fs1 [inputPath]) outputPath = true
    · have hmem : existsSync fs1 outputPath = true := by
        have : outputPath ∈ tryUnlinkAll fs1 [inputPath] := by simpa [existsSync] using hx
        simpa [existsSync] using tryUnlinkAll_subset _ _ _ this
      generalize includes out.stdout "ERROR".toList = b at h ⊢
      generalize out.error = oe at h ⊢
      cases oe <;> cases b <;> simp [hx] at h ⊢
      exact ⟨h.1.symm, hmem⟩
    · generalize includes out.stdout "ERROR".toList = b at h
      generalize out.error = oe at h
      cases oe <;> cases b <;> simp [hx] at h

/-- C6: in `/convert-to-excel` and `/convert-to-word`, whatever the script result and the
filesystem, a standard output that contains `ERROR` is answered 500 `Conversion failed.`,
also with exit status 0 and the output file present; and a download is answered only when
the exit status is 0, the standard output does not contain `ERROR`, and the output file
exists. -/
theorem script_error_marker_is_failure (env : Env) (exec : Exec) (req : Request)
    (file : UploadedFile) (fs : FS) (hfile : req.file = some file) :
    ("ERROR".toList <:+: (exec (scriptCommand (join env.dirname "convert_excelpte.py".toList)
        (resolve env.cwd file.path) (scriptOutputPath env file ".xlsx".toList)) fs).1.stdout →
      (convertToExcel env exec req fs).1 = .send 500 "Conversion failed.".toList)
    ∧ (∀ p n, (convertToExcel env exec req fs).1 = .download p n →
        (exec (scriptCommand (join env.dirname "convert_excelpte.py".toList)
          (resolve env.cwd file.path) (scriptOutputPath env file ".xlsx".toList)) fs).1.error
            = none
        ∧ ¬ "ERROR".toList <:+: (exec (scriptCommand
            (join env.dirname "convert_excelpte.py".toList) (resolve env.cwd file.path)
            (scriptOutputPath env file ".xlsx".toList)) fs).1.stdout
        ∧ p = scriptOutputPath env file ".xlsx".toList
        ∧ existsSync (exec (scriptCommand (join env.dirname "convert_excelpte.py".toList)
            (resolve env.cwd file.path) (scriptOutputPath env file ".xlsx".toList)) fs).2
            (scriptOutputPath env file ".xlsx".toList) = true)
    ∧ ("ERROR".toList <:+: (exec (scriptCommand (join env.dirname "convert_tablesptw.py".toList)
        (resolve env.cwd file.path) (scriptOutputPath env file ".docx".toList)) fs).1.stdout →
      (convertToWord env exec req fs).1 = .send 500 "Conversion failed.".toList)
    ∧ (∀ p n, (convertToWord env exec req fs).1 = .download p n →
        (exec (scriptCommand (join env.dirname "convert_tablesptw.py".toList)
          (resolve env.cwd file.path) (scriptOutputPath env file ".docx".toList)) fs).1.error
            = none
        ∧ ¬ "ERROR".toList <:+: (exec (scriptCommand
            (join env.dirname "convert_tablesptw.py".toList) (resolve env.cwd file.path)
            (scriptOutputPath env file ".docx".toList)) fs).1.stdout
        ∧ p = scriptOutputPath env file ".docx".toList
        ∧ existsSync (exec (scriptCommand (join env.dirname "convert_tablesptw.py".toList)
            (resolve env.cwd file.path) (scriptOutputPath env file ".docx".toList)) fs).2
            (scriptOutputPath env file ".docx".toList) = true) := by
  simp only [convertToExcel, convertToWord, hfile]
  exact ⟨(scriptCallback_marker _ _ _ _ _).1, (scriptCallback_marker _ _ _ _ _).2,
    (scriptCallback_marker _ _ _ _ _).1, (scriptCallback_marker _ _ _ _ _).2⟩

/-- C6 run on a script that exits with status 0, writes its output and prints the marker:
the answer is 500 `Conversion failed.`. -/
theorem script_error_marker_is_failure_witness :
    (scriptSaysError [] uploadedFs).1.error = none ∧
    existsSync (scriptSaysError [] uploadedFs).2 (scriptOutputPath appEnv
      ⟨"uploads/ab12".toList, "report.pdf".toList⟩ ".xlsx".toList) = true ∧
    (convertToExcel appEnv scriptSaysError pdfUpload uploadedFs).1
      = .send 500 "Conversion failed.".toList :=
  ⟨rfl, by decide,
    (script_error_marker_is_failure appEnv scriptSaysError pdfUpload
      ⟨"uploads/ab12".toList, "report.pdf".toList⟩ uploadedFs rfl).1
      ((includes_iff _ _).1 (by decide))⟩

/-! ## What the callbacks leave of the filesystem -/

theorem tryUnlinkAll_all_gone (ps : List Str) (fs : FS) (hnd : ps.Nodup)
    (hex : ∀ p ∈ ps, p ∈ fs) : ∀ p ∈ ps, p ∉ tryUnlinkAll fs ps := by
  induction ps generalizing fs with
  | nil => intro p hp; simp at hp
  | cons a ps ih =>
    intro p hp
    rcases List.mem_cons.1 hp with rfl | hp
    · exact not_mem_tryUnlinkAll_head _ _ _
    · have ha : a ∈ fs := hex a (List.mem_cons_self _ _)
      have hnd' := List.nodup_cons.1 hnd
      unfold tryUnlinkAll unlinkSync
      simp only [ha, if_true]
      refine ih _ hnd'.2 (fun q hq => List.mem_filter.2 ⟨hex q (List.mem_cons_of_mem _ hq), ?_⟩)
        p hp
      have : q ≠ a := fun e => hnd'.1 (e ▸ hq)
      simpa using this

theorem compressCallback_subset (env : Env) (statSize : Str → Nat) (now : Nat)
    (file : UploadedFile) (out : ExecResult) (fs1 : FS) :
    ∀ p ∈ (compressCallback env statSize now file out fs1).2, p ∈ fs1 := by
  intro p hp
  unfold compressCallback at hp
  dsimp only at hp
  generalize existsSync (tryUnlinkAll fs1 [resolve env.cwd file.path])
    (compressOutputPath env now) = x at hp
  generalize out.error = oe at hp
  cases oe <;> cases x <;> simp only [if_true, if_false, Bool.false_eq_true] at hp <;>
    exact tryUnlinkAll_subset _ _ _ hp

theorem compressCallback_missing (env : Env) (statSize : Str → Nat) (now : Nat)
    (file : UploadedFile) (out : ExecResult) (fs1 : FS) (he : out.error = none)
    (hs : (compressCallback env statSize now file out fs1).1.isSuccess = false) :
    compressOutputPath env now ∉ (compressCallback env statSize now file out fs1).2 := by
  unfold compressCallback at hs ⊢
  dsimp only at hs ⊢
  rw [he] at hs ⊢
  by_cases hx : existsSync (tryUnlinkAll fs1 [resolve env.cwd file.path])
      (compressOutputPath env now) = true
  · simp [hx, Response.isSuccess] at hs
  · simp only [hx, if_false, Bool.false_eq_true]
    simpa [existsSync] using hx

theorem scriptCallback_subset (inputPath outputPath outputFilename : Str)
    (out : ExecResult) (fs1 : FS) :
    ∀ p ∈ (scriptCallback inputPath outputPath outputFilename out fs1).2, p ∈ fs1 := by
  intro p hp
  unfold scriptCallback at hp
  dsimp only at hp
  generalize (out.error.isSome || includes out.stdout "ERROR".toList) = b at hp
  generalize existsSync (tryUnlinkAll fs1 [inputPath]) outputPath = x at hp
  cases b <;> cases x <;> simp only [if_true, if_false, Bool.false_eq_true] at hp
  · exact tryUnlinkAll_subset _ _ _ hp
  · exact tryUnlinkAll_subset _ _ _ (tryUnlinkAll_subset _ _ _ hp)
  · exact tryUnlinkAll_subset _ _ _ hp
  · exact tryUnlinkAll_subset _ _ _ hp

theorem scriptCallback_output_gone (inputPath outputPath outputFilename : Str)
    (out : ExecResult) (fs1 : FS) (he : out.error = none)
    (hm : ¬ "ERROR".toList <:+: out.stdout) :
    outputPath ∉ (scriptCallback inputPath outputPath outputFilename out fs1).2 := by
  rw [← includes_iff] at hm
  have hb : (out.error.isSome || includes out.stdout "ERROR".toList) = false := by
    rw [he]
    simpa using hm
  unfold scriptCallback
  dsimp only
  rw [hb]
  by_cases hx : existsSync (tryUnlinkAll fs1 [inputPath]) outputPath = true
  · simp only [hx, if_true, Bool.false_eq_true, if_false]
    exact not_mem_tryUnlinkAll_head _ _ _
  · simp only [hx, if_false, Bool.false_eq_true]
    simpa [existsSync] using hx

theorem protectCallback_subset (inputPath outputPath : Str) (out : ExecResult) (fs1 : FS) :
    ∀ p ∈ (protectCallback inputPath outputPath out fs1).2, p ∈ fs1 := by
  intro p hp
  unfold protectCallback at hp
  dsimp only at hp
  generalize existsSync (tryUnlinkAll fs1 [inputPath]) outputPath = x at hp
  generalize out.error = oe at hp
  cases oe <;> cases x <;> simp only [if_true, if_false, Bool.false_eq_true] at hp
  · exact tryUnlinkAll_subset _ _ _ hp
  · exact tryUnlinkAll_subset _ _ _ (tryUnlinkAll_subset _ _ _ hp)
  · exact tryUnlinkAll_subset _ _ _ hp
  · exact tryUnlinkAll_subset _ _ _ hp

theorem protectCallback_output_gone (inputPath outputPath : Str) (out : ExecResult)
    (fs1 : FS) (he : out.error = none) :
    outputPath ∉ (protectCallback inputPath outputPath out fs1).2 := by
  unfold protectCallback
  dsimp only
  rw [he]
  by_cases hx : existsSync (tryUnlinkAll fs1 [inputPath]) outputPath = true
  · simp only [hx, if_true]
    exact not_mem_tryUnlinkAll_head _ _ _
  · simp only [hx, if_false, Bool.false_eq_true]
    simpa [existsSync] using hx

theorem unlockCallback_subset (inputPath outputPath : Str) (out : ExecResult) (fs1 : FS) :
    ∀ p ∈ (unlockCallback inputPath outputPath out fs1).2, p ∈ fs1 := by
  intro p hp
  unfold unlockCallback at hp
  dsimp only at hp
  generalize existsSync (tryUnlinkAll fs1 [inputPath]) outputPath = x at hp
  generalize (!out.stderr.isEmpty && includes out.stderr "invalid password".toList) = c at hp
  generalize out.error = oe at hp
  cases oe with
  | none =>
    cases x <;> simp only [if_true, if_false, Bool.false_eq_true] at hp
    · exact tryUnlinkAll_subset _ _ _ hp
    · exact tryUnlinkAll_subset _ _ _ (tryUnlinkAll_subset _ _ _ hp)
  | some e =>
    simp only at hp
    split at hp <;> exact tryUnlinkAll_subset _ _ _ hp

theorem unlockCallback_output_gone (inputPath outputPath : Str) (out : ExecResult)
    (fs1 : FS) (he : out.error = none) :
    outputPath ∉ (unlockCallback inputPath outputPath out fs1).2 := by
  unfold unlockCallback
  dsimp only
  rw [he]
  by_cases hx : existsSync (tryUnlinkAll fs1 [inputPath]) outputPath = true
  · simp only [hx, if_true]
    exact not_mem_tryUnlinkAll_head _ _ _
  · simp only [hx, if_false, Bool.false_eq_true]
    simpa [existsSync] using hx

/-- The delivery callback of `/pdf-to-pptx` removes the upload, the deck and the slide
images when they all exist, as distinct paths, once the deck has been written. -/
theorem pdfToPptxCallback_delivery_clean (env : Env)
    (imageSize : Str → Except Thrown Dimensions) (writeFile : WriteFile) (now1 now2 : Nat)
    (file : UploadedFile) (out : ExecResult) (fs1 fs2 : FS) (imgs : List Str)
    (pres : Presentation) (he : out.error = none)
    (hs : slideImages (basename (imgPrefix env now2)) (readdirSync fs1 (outputDir env))
      = .ok imgs)
    (hb : buildPresentation (outputDir env) imageSize imgs = .ok pres)
    (hw : writeFile pres (pptxOutputPath env now1) fs1 = (none, fs2))
    (hnd : ([resolve env.cwd file.path, pptxOutputPath env now1]
      ++ imgs.map (fun img => join (outputDir env) img)).Nodup)
    (hex : ∀ p ∈ [resolve env.cwd file.path, pptxOutputPath env now1]
      ++ imgs.map (fun img => join (outputDir env) img), p ∈ fs2) :
    (pdfToPptxCallback env imageSize writeFile now1 now2 file out fs1).1
      = .download (pptxOutputPath env now1) none
    ∧ ∀ p ∈ [resolve env.cwd file.path, pptxOutputPath env now1]
        ++ imgs.map (fun img => join (outputDir env) img),
      p ∉ (pdfToPptxCallback env imageSize writeFile now1 now2 file out fs1).2 := by
  unfold pdfToPptxCallback
  simp only [he, hs, hb, hw]
  exact ⟨trivial, tryUnlinkAll_all_gone _ _ hnd hex⟩

set_option maxRecDepth 8000 in
/-- C3, counterexample: job paths that exist after the last callback.
(1) A successful `/compress-pdf` job answers with the success JSON and leaves its output
artifact in the output directory; a later `GET /download` of that artifact serves it and
still leaves it there.
(2) A `/convert-to-excel` run whose script exits with status 0, writes the output file and
prints the `ERROR` marker is answered 500 and the output file stays.
(3) On `/convert`, an upload whose staged name is too long for `renameSync` is answered 500
and the upload stays.
(4) On `/excel-to-pdf`, a converter run without error and without output file is answered
500 and the staged input stays.
(5) On `/pdf-to-pptx`, a rasterizer error is answered 500 and the upload and the page image
written so far stay.
(6) On `/pdf-to-pptx`, a delivery whose deck is not on disk leaves the page image.
(7) On `/convert`, a delivery after a converter run that left no staged input leaves the
output file. -/
theorem compress_output_survives_job :
    (compressPdf appEnv compressorOk (fun _ => 1234567) 5 pdfUpload uploadedFs
        = (.jsonSuccess "http://localhost:3000/download/compressed-5.pdf".toList "1.18".toList,
            ["/app/outputs/compressed-5.pdf".toList]) ∧
      existsSync (compressPdf appEnv compressorOk (fun _ => 1234567) 5 pdfUpload uploadedFs).2
        (compressOutputPath appEnv 5) = true ∧
      download appEnv "compressed-5.pdf".toList ["/app/outputs/compressed-5.pdf".toList]
        = (.download "/app/outputs/compressed-5.pdf".toList (some "compressed.pdf".toList),
            ["/app/outputs/compressed-5.pdf".toList])) ∧
    convertToExcel appEnv scriptSaysError pdfUpload uploadedFs
      = (.send 500 "Conversion failed.".toList, ["/app/outputs/report.xlsx".toList]) ∧
    convert appEnv converterOk 5 longExtensionUpload uploadedFs
      = (.send 500 "File processing error.".toList, ["/app/uploads/ab12".toList]) ∧
    excelToPdf appEnv converterNoOutput 5 xlsxUpload uploadedFs
      = (.send 500 "PDF file not found.".toList, ["/app/uploads/ab12.xlsx".toList]) ∧
    pdfToPptx appEnv rasterizerFails imageOk writeFileOk 5 5 pdfUpload uploadedFs
      = (.send 500 "Image generation failed.".toList,
          ["/app/outputs/slide-5-1.jpg".toList, "/app/uploads/ab12".toList]) ∧
    pdfToPptx appEnv rasterizerOk imageOk writeFileSilent 5 5 pdfUpload uploadedFs
      = (.download "/app/outputs/presentation-5.pptx".toList none,
          ["/app/outputs/slide-5-1.jpg".toList]) ∧
    convert appEnv converterTakesInput 5 docxUpload uploadedFs
      = (.download "/app/outputs/ab12.pdf".toList none,
          ["/app/outputs/ab12.pdf".toList]) := by
  refine ⟨⟨by decide, by decide, by decide⟩, by decide, by decide, by decide, by decide,
    by decide, by decide⟩

/-- C3, amended: for a request that carries an upload, after the last callback of the job:
(1) on `/compress-pdf`, `/convert-to-excel` and `/convert-to-word`, and, when the request
carries a password, on `/protect-pdf` and `/unlock-pdf`, the uploaded input no longer exists
on every outcome of the tool run; the output artifact does not exist after a tool error (on
the two script routes: an error or an `ERROR` marker) that left no output file, nor after a
tool success with missing output, nor, on the four delivering routes, after a completed
delivery;
(2) a successful `/compress-pdf` keeps its output artifact, and `/download` removes nothing;
(3) on `/excel-to-pdf`, `/pptx-to-pdf` and `/convert`, once the rename has succeeded, the
profile directory and all below it are gone on every outcome; and when the staged input is
not inside the profile directory and the converter run leaves the staged input in place and
adds only the output file and files inside the profile directory, no path of the job is left
(upload path, staged input, output, profile directory) after a tool error that left no output
file and after a completed delivery, and on `/convert` after every run without a tool error;
(4) on `/pdf-to-pptx`, when the upload, the deck and the slide images all exist, as distinct
paths, once the deck has been written, the deck is sent and none of them is left after the
delivery. -/
theorem job_paths_after_last_callback (env : Env) (exec : Exec) (statSize : Str → Nat)
    (imageSize : Str → Except Thrown Dimensions) (writeFile : WriteFile) (now now2 : Nat)
    (req : Request) (file : UploadedFile) (fs : FS) (hfile : req.file = some file) :
    (∀ r, exec (compressCommand env now req file) fs = r →
      resolve env.cwd file.path ∉ (compressPdf env exec statSize now req fs).2
      ∧ (r.1.error ≠ none → compressOutputPath env now ∉ r.2 →
          compressOutputPath env now ∉ (compressPdf env exec statSize now req fs).2)
      ∧ (r.1.error = none → (compressPdf env exec statSize now req fs).1.isSuccess = false →
          compressOutputPath env now ∉ (compressPdf env exec statSize now req fs).2))
    ∧ (∀ r, exec (scriptCommand (join env.dirname "convert_excelpte.py".toList)
          (resolve env.cwd file.path) (scriptOutputPath env file ".xlsx".toList)) fs = r →
      resolve env.cwd file.path ∉ (convertToExcel env exec req fs).2
      ∧ (r.1.error ≠ none ∨ "ERROR".toList <:+: r.1.stdout →
          scriptOutputPath env file ".xlsx".toList ∉ r.2 →
          scriptOutputPath env file ".xlsx".toList ∉ (convertToExcel env exec req fs).2)
      ∧ (r.1.error = none → ¬ "ERROR".toList <:+: r.1.stdout →
          scriptOutputPath env file ".xlsx".toList ∉ (convertToExcel env exec req fs).2))
    ∧ (∀ r, exec (scriptCommand (join env.dirname "convert_tablesptw.py".toList)
          (resolve env.cwd file.path) (scriptOutputPath env file ".docx".toList)) fs = r →
      resolve env.cwd file.path ∉ (convertToWord env exec req fs).2
      ∧ (r.1.error ≠ none ∨ "ERROR".toList <:+: r.1.stdout →
          scriptOutputPath env file ".docx".toList ∉ r.2 →
          scriptOutputPath env file ".docx".toList ∉ (convertToWord env exec req fs).2)
      ∧ (r.1.error = none → ¬ "ERROR".toList <:+: r.1.stdout →
          scriptOutputPath env file ".docx".toList ∉ (convertToWord env exec req fs).2))
    ∧ (truthy req.body.password = true →
        (∀ r, exec (protectCommand env (escapeQuotes (req.body.password.getD []))
            (resolve env.cwd file.path) (protectOutputPath env now)) fs = r →
          resolve env.cwd file.path ∉ (protectPdf env exec now req fs).2
          ∧ (r.1.error ≠ none → protectOutputPath env now ∉ r.2 →
              protectOutputPath env now ∉ (protectPdf env exec now req fs).2)
          ∧ (r.1.error = none →
              protectOutputPath env now ∉ (protectPdf env exec now req fs).2))
        ∧ (∀ r, exec (unlockCommand env (escapeQuotes (req.body.password.getD []))
            (resolve env.cwd file.path) (unlockOutputPath env now)) fs = r →
          resolve env.cwd file.path ∉ (unlockPdf env exec now req fs).2
          ∧ (r.1.error ≠ none → unlockOutputPath env now ∉ r.2 →
              unlockOutputPath env now ∉ (unlockPdf env exec now req fs).2)
          ∧ (r.1.error = none →
              unlockOutputPath env now ∉ (unlockPdf env exec now req fs).2)))
    ∧ (∀ p n,
        ((convertToExcel env exec req fs).1 = .download p n →
          p ∉ (convertToExcel env exec req fs).2)
        ∧ ((convertToWord env exec req fs).1 = .download p n →
          p ∉ (convertToWord env exec req fs).2)
        ∧ ((protectPdf env exec now req fs).1 = .download p n →
          p ∉ (protectPdf env exec now req fs).2)
        ∧ ((unlockPdf env exec now req fs).1 = .download p n →
          p ∉ (unlockPdf env exec now req fs).2))
    ∧ ((compressPdf env exec statSize now req fs).1.isSuccess = true →
        compressOutputPath env now ∈ (compressPdf env exec statSize now req fs).2)
    ∧ (∀ filename fs', (download env filename fs').2 = fs')
    ∧ (∀ fs0, renameSync fs (resolve env.cwd file.path) (inputPathWithExt env file) = .ok fs0 →
        ((∀ p ∈ (excelToPdf env exec now req fs).2, underDir (uniqueProfileDir env now) p = false)
          ∧ (∀ p ∈ (pptxToPdf env exec now req fs).2,
              underDir (uniqueProfileDir env now) p = false)
          ∧ (∀ p ∈ (convert env exec now req fs).2,
              underDir (uniqueProfileDir env now) p = false))
        ∧ (underDir (uniqueProfileDir env now) (inputPathWithExt env file) = false →
            ConverterBehaves env now file fs0
              (exec (officeCommand env now file (outputDir env)) fs0).2 →
            ((exec (officeCommand env now file (outputDir env)) fs0).1.error ≠ none →
              generatedFile env file ∉ (exec (officeCommand env now file (outputDir env)) fs0).2 →
              OfficeJobClean env now file (excelToPdf env exec now req fs).2
              ∧ OfficeJobClean env now file (pptxToPdf env exec now req fs).2)
            ∧ ((excelToPdf env exec now req fs).1.isSuccess = true →
              OfficeJobClean env now file (excelToPdf env exec now req fs).2)
            ∧ ((pptxToPdf env exec now req fs).1.isSuccess = true →
              OfficeJobClean env now file (pptxToPdf env exec now req fs).2))
        ∧ (underDir (uniqueProfileDir env now) (inputPathWithExt env file) = false →
            ConverterBehaves env now file fs0
              (exec (officeCommand env now file (resolve env.cwd (outputDir env))) fs0).2 →
            ((exec (officeCommand env now file (resolve env.cwd (outputDir env))) fs0).1.error
                ≠ none →
              generatedFile env file
                ∉ (exec (officeCommand env now file (resolve env.cwd (outputDir env))) fs0).2 →
              OfficeJobClean env now file (convert env exec now req fs).2)
            ∧ ((exec (officeCommand env now file (resolve env.cwd (outputDir env))) fs0).1.error
                = none →
              OfficeJobClean env now file (convert env exec now req fs).2)))
    ∧ (∀ r imgs pres fs2, exec (popplerCommand env now2 file) fs = r → r.1.error = none →
        slideImages (basename (imgPrefix env now2)) (readdirSync r.2 (outputDir env))
          = .ok imgs →
        buildPresentation (outputDir env) imageSize imgs = .ok pres →
        writeFile pres (pptxOutputPath env now) r.2 = (none, fs2) →
        ([resolve env.cwd file.path, pptxOutputPath env now]
          ++ imgs.map (fun img => join (outputDir env) img)).Nodup →
        (∀ p ∈ [resolve env.cwd file.path, pptxOutputPath env now]
          ++ imgs.map (fun img => join (outputDir env) img), p ∈ fs2) →
        (pdfToPptx env exec imageSize writeFile now now2 req fs).1
          = .download (pptxOutputPath env now) none
        ∧ ∀ p ∈ [resolve env.cwd file.path, pptxOutputPath env now]
            ++ imgs.map (fun img => join (outputDir env) img),
          p ∉ (pdfToPptx env exec imageSize writeFile now now2 req fs).2) := by
  refine ⟨?_, ?_, ?_, ?_, ?_, ?_, ?_, ?_, ?_⟩
  · intro r hr
    subst hr
    simp only [compressPdf, hfile]
    exact ⟨compressCallback_input_gone _ _ _ _ _ _,
      fun _ hno h => hno (compressCallback_subset _ _ _ _ _ _ _ h),
      fun he hs => compressCallback_missing _ _ _ _ _ _ he hs⟩
  · intro r hr
    subst hr
    simp only [convertToExcel, hfile]
    exact ⟨scriptCallback_input_gone _ _ _ _ _,
      fun _ hno h => hno (scriptCallback_subset _ _ _ _ _ _ h),
      fun he hm => scriptCallback_output_gone _ _ _ _ _ he hm⟩
  · intro r hr
    subst hr
    simp only [convertToWord, hfile]
    exact ⟨scriptCallback_input_gone _ _ _ _ _,
      fun _ hno h => hno (scriptCallback_subset _ _ _ _ _ _ h),
      fun he hm => scriptCallback_output_gone _ _ _ _ _ he hm⟩
  · intro hpw
    constructor
    · intro r hr
      subst hr
      simp only [protectPdf, hfile, hpw, Bool.not_true, Bool.false_eq_true, if_false]
      exact ⟨protectCallback_input_gone _ _ _ _,
        fun _ hno h => hno (protectCallback_subset _ _ _ _ _ h),
        fun he => protectCallback_output_gone _ _ _ _ he⟩
    · intro r hr
      subst hr
      simp only [unlockPdf, hfile, hpw, Bool.not_true, Bool.false_eq_true, if_false]
      exact ⟨unlockCallback_input_gone _ _ _ _,
        fun _ hno h => hno (unlockCallback_subset _ _ _ _ _ h),
        fun he => unlockCallback_output_gone _ _ _ _ he⟩
  · intro p n
    refine ⟨?_, ?_, ?_, ?_⟩
    · simp only [convertToExcel, hfile]
      exact scriptCallback_delivered_gone _ _ _ _ _ _ _
    · simp only [convertToWord, hfile]
      exact scriptCallback_delivered_gone _ _ _ _ _ _ _
    · simp only [protectPdf, hfile]
      by_cases hpw : truthy req.body.password = true
      · simp only [hpw, Bool.not_true, Bool.false_eq_true, if_false]
        exact protectCallback_delivered_gone _ _ _ _ _ _
      · simp [hpw]
    · simp only [unlockPdf, hfile]
      by_cases hpw : truthy req.body.password = true
      · simp only [hpw, Bool.not_true, Bool.false_eq_true, if_false]
        exact unlockCallback_delivered_gone _ _ _ _ _ _
      · simp [hpw]
  · simp only [compressPdf, hfile]
    exact compressCallback_keeps_output _ _ _ _ _ _
  · intro filename fs'
    unfold download
    dsimp only
    split <;> rfl
  · intro fs0 h0
    refine ⟨⟨?_, ?_, ?_⟩, ?_, ?_⟩
    · simp only [excelToPdf, hfile, h0]
      exact fun p hp => ((mem_rmSync _ _ _).1 (excelToPdfCallback_profile_gone _ _ _ _ _ p hp)).2
    · simp only [pptxToPdf, hfile, h0]
      exact fun p hp => ((mem_rmSync _ _ _).1 (pptxToPdfCallback_profile_gone _ _ _ _ _ p hp)).2
    · simp only [convert, hfile, h0]
      exact fun p hp => ((mem_rmSync _ _ _).1 (convertCallback_profile_gone _ _ _ _ _ p hp)).2
    · intro hd hW
      simp only [excelToPdf, pptxToPdf, hfile, h0]
      have h1 := excelToPdfCallback_clean env now file
        (exec (officeCommand env now file (outputDir env)) fs0).1 fs fs0 _ h0 hd hW
      have h2 := pptxToPdfCallback_clean env now file
        (exec (officeCommand env now file (outputDir env)) fs0).1 fs fs0 _ h0 hd hW
      exact ⟨fun he hg => ⟨h1.1 he hg, h2.1 he hg⟩, h1.2, h2.2⟩
    · intro hd hW
      simp only [convert, hfile, h0]
      exact convertCallback_clean env now file _ fs fs0 _ h0 hd hW
  · intro r imgs pres fs2 hr he hs hb hw hnd hex
    subst hr
    simp only [pdfToPptx, hfile]
    exact pdfToPptxCallback_delivery_clean env imageSize writeFile now now2 file _ _ fs2 imgs
      pres he hs hb hw hnd hex

/-- C3, amended, run on a `/convert` job whose converter succeeds: nothing of the job is
left; on `/compress-pdf`: the upload is gone; and on a `/pdf-to-pptx` job of one page whose
deck is written: the deck is sent, and the upload, the deck and the page image are gone. -/
theorem job_paths_after_last_callback_witness :
    docxUpload.file = some docxFile ∧
    OfficeJobClean appEnv 5 docxFile (convert appEnv converterOk 5 docxUpload uploadedFs).2 ∧
    resolve appEnv.cwd docxFile.path
      ∉ (compressPdf appEnv converterOk (fun _ => 0) 5 docxUpload uploadedFs).2 ∧
    ((pdfToPptx appEnv rasterizerOk imageOk writeFileOk 5 5 docxUpload uploadedFs).1
        = .download (pptxOutputPath appEnv 5) none
      ∧ ∀ p ∈ [resolve appEnv.cwd docxFile.path, pptxOutputPath appEnv 5]
          ++ ["slide-5-1.jpg".toList].map (fun img => join (outputDir appEnv) img),
        p ∉ (pdfToPptx appEnv rasterizerOk imageOk writeFileOk 5 5 docxUpload uploadedFs).2) := by
  have h := job_paths_after_last_callback appEnv converterOk (fun _ => 0) imageOk writeFileOk
    5 5 docxUpload docxFile uploadedFs rfl
  have h' := job_paths_after_last_callback appEnv rasterizerOk (fun _ => 0) imageOk
    writeFileOk 5 5 docxUpload docxFile uploadedFs rfl
  refine ⟨rfl, ?_, (h.1 _ rfl).1, ?_⟩
  · have h6 := h.2.2.2.2.2.2.2.1 ["/app/uploads/ab12.docx".toList] (by decide)
    exact (h6.2.2 (by decide) ⟨by decide, by decide⟩).2 rfl
  · exact h'.2.2.2.2.2.2.2.2 _ ["slide-5-1.jpg".toList]
      { layout := "PDF_SIZE".toList, width := ((1650 : Nat) : ℚ) / 150,
        height := ((1275 : Nat) : ℚ) / 150,
        slides := [{ path := "/app/outputs/slide-5-1.jpg".toList, x := 0, y := 0,
                     w := ((1650 : Nat) : ℚ) / 150, h := ((1275 : Nat) : ℚ) / 150 }] }
      ("/app/outputs/presentation-5.pptx".toList :: "/app/outputs/slide-5-1.jpg".toList
        :: uploadedFs)
      rfl rfl (by decide) rfl (by decide) (by decide) (by decide)

/-! ## Lemmas on the path functions -/

theorem takeWhile_append_stop (p : Char → Bool) (l r : Str) (a : Char)
    (hl : ∀ x ∈ l, p x = true) (ha : p a = false) :
    (l ++ a :: r).takeWhile p = l ∧ (l ++ a :: r).dropWhile p = a :: r := by
  induction l with
  | nil => simp [List.takeWhile, List.dropWhile, ha]
  | cons d l ih =>
    have h1 := hl d (List.mem_cons_self _ _)
    have := ih (fun c hc => hl c (List.mem_cons_of_mem _ hc))
    simp [List.takeWhile, List.dropWhile, h1, this]

theorem takeWhile_append_all (p : Char → Bool) (l r : Str) (hl : ∀ x ∈ l, p x = true) :
    (l ++ r).takeWhile p = l ++ r.takeWhile p := by
  induction l with
  | nil => rfl
  | cons d l ih =>
    have h1 := hl d (List.mem_cons_self _ _)
    simp [List.takeWhile, h1, ih (fun c hc => hl c (List.mem_cons_of_mem _ hc))]

theorem dropWhile_of_head (p : Char → Bool) (l : Str)
    (h : ∀ c, l.head? = some c → p c = false) : l.dropWhile p = l := by
  cases l with
  | nil => rfl
  | cons c cs => simp [List.dropWhile, h c rfl]

theorem slash_not_mem_basename (p : Str) : '/' ∉ basename p := by
  intro h
  unfold basename at h
  rw [List.mem_reverse] at h
  have := List.mem_takeWhile_imp h
  simp at this

/-- The basename of a path that does not end in a slash is what follows its last slash. -/
theorem basename_of_no_trailing_slash (p : Str) (h : p.getLast? ≠ some '/') :
    basename p = (p.reverse.takeWhile (fun c => c ≠ '/')).reverse := by
  unfold basename
  rw [dropWhile_of_head]
  intro c hc
  rw [List.head?_reverse] at hc
  have : c ≠ '/' := fun hc' => h (hc' ▸ hc)
  simpa using this

/-- An extension is empty or a dot followed by characters of the path portion, none of
them a dot. -/
theorem extOf_shape (comp : Str) :
    extOf comp = [] ∨ ∃ t, extOf comp = '.' :: t ∧ '.' ∉ t ∧ ∀ x ∈ t, x ∈ comp := by
  unfold extOf
  dsimp only
  split
  · exact Or.inl rfl
  · split
    · exact Or.inl rfl
    · split
      · exact Or.inl rfl
      · refine Or.inr ⟨_, rfl, ?_, ?_⟩
        · intro h
          rw [List.mem_reverse] at h
          have := List.mem_takeWhile_imp h
          simp at this
        · intro x hx
          rw [List.mem_reverse] at hx
          exact List.mem_reverse.1 ((List.takeWhile_sublist _).subset hx)

theorem extname_shape (p : Str) :
    extname p = [] ∨ ∃ t, extname p = '.' :: t ∧ '.' ∉ t ∧ '/' ∉ t := by
  rcases extOf_shape (basename p) with h | ⟨t, h1, h2, h3⟩
  · exact Or.inl h
  · exact Or.inr ⟨t, h1, h2, fun h => slash_not_mem_basename p (h3 _ h)⟩

/-- Appending an extension to a path with a plain, dot-free last portion gives a path with
exactly that extension. -/
theorem extname_append (ip t : Str) (hl : ip.getLast? ≠ some '/') (hne : basename ip ≠ [])
    (hdot : '.' ∉ basename ip) (ht : '.' ∉ t) (hs : '/' ∉ t) :
    extname (ip ++ '.' :: t) = '.' :: t := by
  have hb := basename_of_no_trailing_slash ip hl
  have hlast : (ip ++ '.' :: t).getLast? ≠ some '/' := by
    rw [List.getLast?_append]
    cases t with
    | nil => simp
    | cons a t' =>
      intro h
      have hmem : '/' ∈ a :: t' := by
        have h2 : (a :: t').getLast? = some '/' := by
          cases hq : (a :: t').getLast? with
          | none => simp at hq
          | some z => simpa [List.getLast?_cons_cons, hq] using h
        exact List.mem_of_getLast?_eq_some h2
      exact hs hmem
  have hbase : basename (ip ++ '.' :: t) = basename ip ++ '.' :: t := by
    rw [basename_of_no_trailing_slash _ hlast, hb]
    have hrev : (ip ++ '.' :: t).reverse = (t.reverse ++ ['.']) ++ ip.reverse := by simp
    rw [hrev, takeWhile_append_all]
    · simp
    · intro x hx
      rcases List.mem_append.1 hx with hx | hx
      · have : x ≠ '/' := fun h => hs (h ▸ List.mem_reverse.1 hx)
        simpa using this
      · have : x = '.' := by simpa using hx
        subst this; decide
  unfold extname
  rw [hbase]
  have hrev : (basename ip ++ '.' :: t).reverse = t.reverse ++ '.' :: (basename ip).reverse := by
    simp
  have hstop := takeWhile_append_stop (fun c => c ≠ '.') t.reverse (basename ip).reverse '.'
    (by intro x hx
        have : x ≠ '.' := fun h => ht (h ▸ List.mem_reverse.1 hx)
        simpa using this) (by decide)
  unfold extOf
  dsimp only
  rw [hrev, hstop.1, hstop.2]
  have h1 : '.' ∈ basename ip ++ '.' :: t := by simp
  have h2 : ¬ (List.drop 1 ('.' :: (basename ip).reverse) = []) := by
    simpa using hne
  have h3 : ¬ (basename ip ++ '.' :: t = ['.', '.']) := by
    intro h
    cases hbn : basename ip with
    | nil => exact hne hbn
    | cons a r =>
      rw [hbn] at h hdot
      simp only [List.cons_append, List.cons.injEq] at h
      exact hdot (h.1 ▸ List.mem_cons_self _ _)
  rw [if_neg (not_not.2 h1), if_neg h2, if_neg h3, List.reverse_reverse]

theorem extname_of_no_dot (ip : Str) (hdot : '.' ∉ basename ip) : extname ip = [] := by
  unfold extname extOf
  dsimp only
  rw [if_pos hdot]

theorem slash_not_mem_segments (p : Str) : ∀ s ∈ segments p, '/' ∉ s := by
  induction p with
  | nil => intro s hs; simp [segments] at hs; subst hs; simp
  | cons c cs ih =>
    intro s hs
    unfold segments at hs
    by_cases hc : c = '/'
    · simp only [hc, if_true, List.mem_cons] at hs
      rcases hs with rfl | hs
      · simp
      · exact ih s hs
    · simp only [hc, if_false] at hs
      cases hseg : segments cs with
      | nil =>
        simp only [hseg, List.mem_singleton] at hs
        subst hs
        simpa using fun h : '/' = c => hc h.symm
      | cons s0 ss =>
        simp only [hseg, List.mem_cons] at hs
        rcases hs with rfl | hs
        · intro h
          rcases List.mem_cons.1 h with h | h
          · exact hc h.symm
          · exact ih s0 (by simp [hseg]) h
        · exact ih s (by simp [hseg, hs])

theorem pushSegment_kept (a : Bool) (stack : List Str) (seg : Str)
    (hst : ∀ s ∈ stack, s ≠ [] ∧ '/' ∉ s) (hseg : '/' ∉ seg) :
    ∀ s ∈ pushSegment a stack seg, s ≠ [] ∧ '/' ∉ s := by
  intro s hs
  unfold pushSegment at hs
  split at hs
  · exact hst s hs
  · rename_i h1
    split at hs
    · rename_i h2
      cases stack with
      | nil =>
        cases a <;> simp at hs
        subst hs
        exact ⟨fun h => h1 (Or.inl h), hseg⟩
      | cons top rest =>
        simp only at hs
        split at hs
        · cases a
          · exact hst s (by simpa using hs)
          · simp only [if_true, List.mem_cons] at hs
            rcases hs with rfl | hs
            · exact ⟨fun h => h1 (Or.inl h), hseg⟩
            · exact hst s (by simpa using hs)
        · exact hst s (List.mem_cons_of_mem _ hs)
    · rcases List.mem_cons.1 hs with rfl | hs
      · exact ⟨fun h => h1 (Or.inl h), hseg⟩
      · exact hst s hs

theorem foldl_pushSegment_kept (a : Bool) (segs : List Str) (stack : List Str)
    (hst : ∀ s ∈ stack, s ≠ [] ∧ '/' ∉ s) (hsegs : ∀ s ∈ segs, '/' ∉ s) :
    ∀ s ∈ segs.foldl (pushSegment a) stack, s ≠ [] ∧ '/' ∉ s := by
  induction segs generalizing stack with
  | nil => exact hst
  | cons seg segs ih =>
    exact ih _ (pushSegment_kept a stack seg hst (hsegs seg (List.mem_cons_self _ _)))
      (fun s hs => hsegs s (List.mem_cons_of_mem _ hs))

theorem joinSlash_last (l : List Str) (hl : ∀ s ∈ l, s ≠ [] ∧ '/' ∉ s) :
    joinSlash l = [] ∨ (joinSlash l).getLast? ≠ some '/' := by
  induction l with
  | nil => exact Or.inl rfl
  | cons s ss ih =>
    right
    have hs := hl s (List.mem_cons_self _ _)
    cases ss with
    | nil =>
      intro h
      exact hs.2 (List.mem_of_getLast?_eq_some h)
    | cons s' ss' =>
      have ih' := ih (fun x hx => hl x (List.mem_cons_of_mem _ hx))
      have hne : joinSlash (s' :: ss') ≠ [] := by
        have hs' := hl s' (by simp)
        cases ss' with
        | nil => exact hs'.1
        | cons s'' r =>
          unfold joinSlash
          cases s' with
          | nil => exact absurd rfl hs'.1
          | cons c cs => simp
      rcases ih' with h | h
      · exact absurd h hne
      · show (s ++ '/' :: joinSlash (s' :: ss')).getLast? ≠ some '/'
        rw [List.getLast?_append]
        cases hj : joinSlash (s' :: ss') with
        | nil => exact absurd hj hne
        | cons c cs =>
          rw [hj] at h
          cases hq : (c :: cs).getLast? with
          | none => simp at hq
          | some z =>
            rw [hq] at h
            have : ('/' :: c :: cs).getLast? = some z := by
              rw [List.getLast?_cons_cons, hq]
            simp [this]
            exact fun hz => h (by rw [hz])

theorem normalizeString_last (p : Str) (a : Bool) :
    normalizeString p a = [] ∨ (normalizeString p a).getLast? ≠ some '/' := by
  unfold normalizeString
  apply joinSlash_last
  intro s hs
  exact foldl_pushSegment_kept a (segments p) [] (by simp) (slash_not_mem_segments p) s
    (List.mem_reverse.1 hs)

/-- A resolved path ends in a slash only when it is the root. -/
theorem resolve_last (cwd p : Str) (h : (resolve cwd p).getLast? = some '/') :
    resolve cwd p = ['/'] := by
  unfold resolve at h ⊢
  dsimp only at h ⊢
  generalize (if p = [] then cwd ++ ['/']
    else if p.head? = some '/' then p ++ ['/'] else cwd ++ '/' :: (p ++ ['/'])) = joined at h ⊢
  by_cases habs : joined.head? = some '/'
  · simp only [habs, if_true] at h ⊢
    rcases normalizeString_last joined (!decide True) with hr | hr
    · rw [hr]
    · cases hn : normalizeString joined (!decide True) with
      | nil => rfl
      | cons c cs =>
        rw [hn] at h hr
        rw [List.getLast?_cons_cons] at h
        exact absurd h hr
  · simp only [habs, if_false] at h
    rcases normalizeString_last joined (!decide False) with hr | hr
    · simp only [hr, ne_eq, not_true_eq_false, if_false] at h
      exact absurd h (by decide)
    · split at h
      · exact absurd h hr
      · exact absurd h (by decide)

/-- C7: in the office-to-PDF routes, when the last portion of the upload temp path is a
non-empty name without a dot, the staged path `inputPath + path.extname(originalname)` has
the extension of the original file name; the command line ends with the staged path in
quotes; and each of the three handlers runs exactly that command line once the rename has
succeeded. -/
theorem staged_path_keeps_extension (env : Env) (exec : Exec) (now : Nat) (req : Request)
    (file : UploadedFile) (fs : FS) (hfile : req.file = some file)
    (hne : basename (resolve env.cwd file.path) ≠ [])
    (hdot : '.' ∉ basename (resolve env.cwd file.path)) :
    extname (inputPathWithExt env file) = extname file.originalname
    ∧ (∀ outdir, officeCommand env now file outdir
        = SOFFICE_PATH env ++ " -env:UserInstallation=".toList ++ quoted (profileUrl env now)
          ++ " --headless --convert-to pdf --outdir ".toList ++ quoted outdir ++ " ".toList
          ++ quoted (resolve env.cwd file.path ++ extname file.originalname))
    ∧ (∀ fs0, renameSync fs (resolve env.cwd file.path) (inputPathWithExt env file) = .ok fs0 →
        excelToPdf env exec now req fs
          = excelToPdfCallback env now file
              (exec (officeCommand env now file (outputDir env)) fs0).1
              (exec (officeCommand env now file (outputDir env)) fs0).2
        ∧ pptxToPdf env exec now req fs
          = pptxToPdfCallback env now file
              (exec (officeCommand env now file (outputDir env)) fs0).1
              (exec (officeCommand env now file (outputDir env)) fs0).2
        ∧ convert env exec now req fs
          = convertCallback env now file
              (exec (officeCommand env now file (resolve env.cwd (outputDir env))) fs0).1
              (exec (officeCommand env now file (resolve env.cwd (outputDir env))) fs0).2) := by
  refine ⟨?_, fun outdir => rfl, ?_⟩
  · have hl : (resolve env.cwd file.path).getLast? ≠ some '/' := by
      intro h
      rw [resolve_last _ _ h] at hne
      exact hne (by decide)
    unfold inputPathWithExt
    rcases extname_shape file.originalname with h | ⟨t, h, ht, hs⟩
    · rw [h, List.append_nil]
      exact extname_of_no_dot _ hdot
    · rw [h]
      exact extname_append _ t hl hne hdot ht hs
  · intro fs0 h0
    simp only [excelToPdf, pptxToPdf, convert, hfile, h0, and_self]

/-- C7 on `report.xlsx` uploaded as `uploads/ab12`: the staged path is
`/app/uploads/ab12.xlsx`, with extension `.xlsx`. -/
theorem staged_path_keeps_extension_witness :
    basename (resolve appEnv.cwd xlsxFile.path) = "ab12".toList ∧
    inputPathWithExt appEnv xlsxFile = "/app/uploads/ab12.xlsx".toList ∧
    extname (inputPathWithExt appEnv xlsxFile) = ".xlsx".toList :=
  ⟨by decide, by decide,
    (staged_path_keeps_extension appEnv converterOk 5 xlsxUpload xlsxFile uploadedFs rfl
      (by decide) (by decide)).1.trans (by decide)⟩

/-! ## Profile directories of concurrent office jobs -/

/-- C8 at the failing input: two office jobs with distinct uploads (`uploads/ab12` and
`uploads/cd34`) that read the same `Date.now()` get one and the same profile directory, and
both command lines name it; their staged inputs and output files are distinct. -/
theorem same_millisecond_jobs_share_profile_dir :
    resolve appEnv.cwd docxFile.path ≠ resolve appEnv.cwd otherDocxFile.path ∧
    uniqueProfileDir appEnv sameMillisecond
      = "/app/temp_profiles/profile-1700000000000".toList ∧
    includes (officeCommand appEnv sameMillisecond docxFile (outputDir appEnv))
      "-env:UserInstallation=\"file:////app/temp_profiles/profile-1700000000000\"".toList
      = true ∧
    includes (officeCommand appEnv sameMillisecond otherDocxFile (outputDir appEnv))
      "-env:UserInstallation=\"file:////app/temp_profiles/profile-1700000000000\"".toList
      = true ∧
    inputPathWithExt appEnv docxFile ≠ inputPathWithExt appEnv otherDocxFile ∧
    generatedFile appEnv docxFile ≠ generatedFile appEnv otherDocxFile := by
  refine ⟨by decide, by decide, by decide, by decide, by decide, by decide⟩

/-! ## Password quoting -/

/-- A password without a backslash survives: reading the quoted argument gives the password
back and stops at the closing quote. -/
theorem readQuoted_escapeQuotes (p rest : Str) (h : '\\' ∉ p) :
    readQuoted (escapeQuotes p ++ '"' :: rest) = some (p, rest) := by
  induction p with
  | nil =>
    show readQuoted ('"' :: rest) = some ([], rest)
    rw [readQuoted.eq_def]
    simp
  | cons c cs ih =>
    have hc : c ≠ '\\' := fun e => h (e ▸ List.mem_cons_self _ _)
    have ih' := ih (fun m => h (List.mem_cons_of_mem _ m))
    by_cases hq : c = '"'
    · subst hq
      show readQuoted ('\\' :: '"' :: (escapeQuotes cs ++ '"' :: rest)) = _
      rw [readQuoted.eq_def]
      simp [ih']
    · have he : escapeQuotes (c :: cs) = c :: escapeQuotes cs := by
        simp [escapeQuotes, hq]
      rw [he, List.cons_append, readQuoted.eq_def]
      simp [hq, hc, ih']

/-- C9 at the failing inputs. For the password backslash-quote, the quote of the escaped
value ends the argument, which reads back as a lone backslash. For the password `a`
followed by a backslash, the closing quote of the template is taken as escaped and the
argument runs on into the rest of the `/unlock-pdf` command line. -/
theorem backslash_password_breaks_quoting :
    escapeQuotes ['\\', '"'] = ['\\', '\\', '"'] ∧
    unlockCommand appEnv (escapeQuotes ['\\', '"']) "/in".toList "/out".toList
      = "qpdf --password=\"".toList
        ++ (escapeQuotes ['\\', '"'] ++ '"' :: " --decrypt \"/in\" \"/out\"".toList) ∧
    readQuoted (escapeQuotes ['\\', '"'] ++ '"' :: " --decrypt \"/in\" \"/out\"".toList)
      = some (['\\'], '"' :: " --decrypt \"/in\" \"/out\"".toList) ∧
    escapeQuotes ['a', '\\'] = ['a', '\\'] ∧
    readQuoted (escapeQuotes ['a', '\\'] ++ '"' :: " --decrypt \"/in\" \"/out\"".toList)
      = some ("a\" --decrypt ".toList, "/in\" \"/out\"".toList) := by
  refine ⟨by decide, by decide, by decide, by decide, by decide⟩

/-! ## A sort that reaches the comparator checks its elements -/

theorem insertSorted_ok_facts {α ε : Type} (cmp : α → α → Except ε Num) (x : α)
    (acc r : List α) (h : insertSorted cmp x acc = .ok r) :
    (∀ z, z ∈ r ↔ z = x ∨ z ∈ acc) ∧ r.length = acc.length + 1 ∧
      ∀ y ys, acc = y :: ys → ∃ c, cmp x y = .ok c := by
  induction acc generalizing r with
  | nil =>
    simp only [insertSorted, Except.ok.injEq] at h
    subst h
    simp
  | cons y ys ih =>
    unfold insertSorted at h
    cases hc : cmp x y with
    | error e => simp [hc] at h
    | ok c =>
      simp only [hc] at h
      by_cases hlt : c.isNegative = true
      · simp only [hlt, if_true, Except.ok.injEq] at h
        subst h
        exact ⟨fun z => by simp, by simp, fun y' ys' e => by
          injection e with e1 e2; subst e1; exact ⟨c, hc⟩⟩
      · simp only [hlt, if_false] at h
        cases hr : insertSorted cmp x ys with
        | error e => simp [hr] at h
        | ok r' =>
          simp only [hr, Bool.false_eq_true, if_false, Except.ok.injEq] at h
          subst h
          obtain ⟨hm, hl, -⟩ := ih r' hr
          refine ⟨fun z => ?_, by simp [hl], fun y' ys' e => by
            injection e with e1 e2; subst e1; exact ⟨c, hc⟩⟩
          simp only [List.mem_cons, hm]
          tauto

theorem sortLoop_ok_checked {α ε : Type} (cmp : α → α → Except ε Num) (wf : α → Prop)
    (hcmp : ∀ a b c, cmp a b = .ok c → wf a ∧ wf b) (l acc r : List α)
    (h : sortLoop cmp acc l = .ok r) (hlen : 2 ≤ acc.length + l.length)
    (hacc : 2 ≤ acc.length → ∀ a ∈ acc, wf a) : ∀ a ∈ acc ++ l, wf a := by
  induction l generalizing acc with
  | nil =>
    simp only [List.length_nil, Nat.add_zero] at hlen
    simpa using hacc hlen
  | cons x xs ih =>
    unfold sortLoop at h
    cases hi : insertSorted cmp x acc with
    | error e => simp [hi] at h
    | ok acc' =>
      simp only [hi] at h
      obtain ⟨hm, hl, hhead⟩ := insertSorted_ok_facts cmp x acc acc' hi
      have hacc' : 2 ≤ acc'.length → ∀ a ∈ acc', wf a := by
        intro h2 a ha
        cases acc with
        | nil => simp at hl; omega
        | cons y ys =>
          obtain ⟨c, hc⟩ := hhead y ys rfl
          have hxy := hcmp x y c hc
          rcases (hm a).1 ha with rfl | ha
          · exact hxy.1
          · cases ys with
            | nil =>
              have : a = y := by simpa using ha
              exact this ▸ hxy.2
            | cons y2 ys2 => exact hacc (by simp) a ha
      have := ih acc' h (by simp only [List.length_cons] at hlen; omega) hacc'
      intro a ha
      rcases List.mem_append.1 ha with ha | ha
      · exact this a (List.mem_append_left _ ((hm a).2 (Or.inr ha)))
      · rcases List.mem_cons.1 ha with rfl | ha
        · exact this a (List.mem_append_left _ ((hm a).2 (Or.inl rfl)))
        · exact this a (List.mem_append_right _ ha)

/-- A sort of two or more elements that succeeds has passed every element to the
comparator. -/
theorem jsSort_ok_checked {α ε : Type} (cmp : α → α → Except ε Num) (wf : α → Prop)
    (hcmp : ∀ a b c, cmp a b = .ok c → wf a ∧ wf b) (l r : List α)
    (h : jsSort cmp l = .ok r) (hlen : 2 ≤ l.length) : ∀ a ∈ l, wf a := by
  have := sortLoop_ok_checked cmp wf hcmp l [] r h (by simpa using hlen) (by simp)
  simpa using this

/-- A name the expression matches ends in a dash, decimal digits and `.jpg`. -/
theorem matchPage_some_form (f ds : Str) (h : matchPage f = some ds) :
    ∃ pre, ds ≠ [] ∧ (∀ c ∈ ds, c.isDigit = true) ∧ f = pre ++ '-' :: (ds ++ ".jpg".toList) := by
  unfold matchPage at h
  obtain ⟨t, ht, hm⟩ := List.exists_of_findSome?_eq_some h
  obtain ⟨pre, hpre⟩ := (List.mem_tails _ _).1 ht
  refine ⟨pre, ?_⟩
  unfold matchPageAt at hm
  split at hm
  · rename_i r
    dsimp only at hm
    split at hm
    · rename_i hc
      simp only [Option.some.injEq] at hm
      subst hm
      refine ⟨hc.1, fun c hc' => List.mem_takeWhile_imp hc', ?_⟩
      rw [← hpre, ← hc.2, List.takeWhile_append_dropWhile]
    · simp at hm
  · simp at hm

theorem matchPage_none_of_not_numbered (f : Str)
    (h : ¬ ∃ pre ds, ds ≠ [] ∧ (∀ c ∈ ds, c.isDigit = true) ∧
      f = pre ++ '-' :: (ds ++ ".jpg".toList)) : matchPage f = none := by
  cases hm : matchPage f with
  | none => rfl
  | some ds =>
    obtain ⟨pre, h1, h2, h3⟩ := matchPage_some_form f ds hm
    exact absurd ⟨pre, ds, h1, h2, h3⟩ h

/-- C10, counterexample: the only selected image is `slide-5-cover.jpg`, which does not
match the numbering pattern; the sort never calls the comparator, the deck is built and
written, and the handler delivers it instead of answering 500. -/
theorem single_unnumbered_image_is_assembled :
    selectSlides (basename (imgPrefix appEnv 5))
        (readdirSync (rasterizerOddName [] uploadedFs).2 (outputDir appEnv))
      = ["slide-5-cover.jpg".toList] ∧
    matchPage "slide-5-cover.jpg".toList = none ∧
    slideImages (basename (imgPrefix appEnv 5))
        (readdirSync (rasterizerOddName [] uploadedFs).2 (outputDir appEnv))
      = .ok ["slide-5-cover.jpg".toList] ∧
    pdfToPptx appEnv rasterizerOddName imageOk writeFileOk 4 5 pdfUpload uploadedFs
      = (.download "/app/outputs/presentation-4.pptx".toList none, []) := by
  refine ⟨by decide, by decide, by decide, by decide⟩

/-- C10, amended: in `/pdf-to-pptx`, when the rasterizer reported no error and two or more
names are selected, one selected name that does not end in a dash, decimal digits and
`.jpg` makes the handler answer 500 `PPTX creation failed.` with the filesystem as the
rasterizer left it: no deck is written or delivered. A single selected name is not compared
with anything and is kept whatever its form. -/
theorem unnumbered_image_fails_assembly (env : Env) (exec : Exec)
    (imageSize : Str → Except Thrown Dimensions) (writeFile : WriteFile) (now1 now2 : Nat)
    (req : Request) (file : UploadedFile) (fs : FS) (hfile : req.file = some file)
    (hok : (exec (popplerCommand env now2 file) fs).1.error = none)
    (hlen : 2 ≤ (selectSlides (basename (imgPrefix env now2))
      (readdirSync (exec (popplerCommand env now2 file) fs).2 (outputDir env))).length)
    (hbad : ∃ f ∈ selectSlides (basename (imgPrefix env now2))
        (readdirSync (exec (popplerCommand env now2 file) fs).2 (outputDir env)),
      ¬ ∃ pre ds, ds ≠ [] ∧ (∀ c ∈ ds, c.isDigit = true) ∧
        f = pre ++ '-' :: (ds ++ ".jpg".toList)) :
    pdfToPptx env exec imageSize writeFile now1 now2 req fs
      = (.send 500 "PPTX creation failed.".toList, (exec (popplerCommand env now2 file) fs).2)
    ∧ ∀ f : Str, jsSort compareSlides [f] = .ok [f] := by
  refine ⟨?_, fun f => rfl⟩
  simp only [pdfToPptx, hfile, pdfToPptxCallback, hok]
  cases hs : slideImages (basename (imgPrefix env now2))
      (readdirSync (exec (popplerCommand env now2 file) fs).2 (outputDir env)) with
  | error e => rfl
  | ok imgs =>
    exfalso
    obtain ⟨f, hf, hform⟩ := hbad
    have hwf := jsSort_ok_checked compareSlides (fun a => (matchPage a).isSome = true)
      (fun a b c h => compareSlides_ok a b c h) _ imgs hs hlen f hf
    have hwf' : (matchPage f).isSome = true := hwf
    rw [matchPage_none_of_not_numbered f hform] at hwf'
    exact absurd hwf' (by decide)

/-- C10, amended, run on a listing with `slide-5-1.jpg` and `slide-5-cover.jpg`: the
handler answers 500 and leaves the images and the upload where they are. -/
theorem unnumbered_image_fails_assembly_witness :
    pdfToPptx appEnv rasterizerMixedNames imageOk writeFileOk 4 5 pdfUpload uploadedFs
      = (.send 500 "PPTX creation failed.".toList,
          ["/app/outputs/slide-5-1.jpg".toList, "/app/outputs/slide-5-cover.jpg".toList,
            "/app/uploads/ab12".toList]) :=
  (unnumbered_image_fails_assembly appEnv rasterizerMixedNames imageOk writeFileOk 4 5
    pdfUpload ⟨"uploads/ab12".toList, "report.pdf".toList⟩ uploadedFs rfl rfl (by decide)
    ⟨"slide-5-cover.jpg".toList, by decide, by
      intro h
      obtain ⟨pre, ds, h1, h2, h3⟩ := h
      have := matchPage_numbered pre ds h1 h2
      rw [← h3] at this
      have hnone : matchPage "slide-5-cover.jpg".toList = none := by decide
      rw [hnone] at this
      exact Option.noConfusion this⟩).1

/-! ## Cleanup of `/pdf-to-pptx` -/

/-- C11 at the failing inputs: on `/pdf-to-pptx` the upload `uploads/ab12` and the page
image `slide-5-1.jpg` are still there after the last callback when the rasterizer fails,
when the first image cannot be read, and when the deck cannot be written; the upload is
still there when no image was found. Only the delivery callback removes them. -/
theorem pdfToPptx_failure_paths_remove_nothing :
    pdfToPptx appEnv rasterizerFails imageOk writeFileOk 4 5 pdfUpload uploadedFs
      = (.send 500 "Image generation failed.".toList,
          ["/app/outputs/slide-5-1.jpg".toList, "/app/uploads/ab12".toList]) ∧
    pdfToPptx appEnv rasterizerNoImages imageOk writeFileOk 4 5 pdfUpload uploadedFs
      = (.send 500 "PPTX creation failed.".toList, ["/app/uploads/ab12".toList]) ∧
    pdfToPptx appEnv rasterizerOk imageUnreadable writeFileOk 4 5 pdfUpload uploadedFs
      = (.send 500 "PPTX creation failed.".toList,
          ["/app/outputs/slide-5-1.jpg".toList, "/app/uploads/ab12".toList]) ∧
    pdfToPptx appEnv rasterizerOk imageOk writeFileRejects 4 5 pdfUpload uploadedFs
      = (.send 500 "PPTX creation failed.".toList,
          ["/app/outputs/slide-5-1.jpg".toList, "/app/uploads/ab12".toList]) ∧
    startsWith "slide-5-1.jpg".toList (basename (imgPrefix appEnv 5)) = true ∧
    resolve appEnv.cwd "uploads/ab12".toList = "/app/uploads/ab12".toList ∧
    pdfToPptx appEnv rasterizerOk imageOk writeFileOk 4 5 pdfUpload uploadedFs
      = (.download "/app/outputs/presentation-4.pptx".toList none, []) := by
  refine ⟨by decide, by decide, by decide, by decide, by decide, by decide, by decide⟩

/-! ## Lemmas on `segments` and `joinSlash` -/

theorem segments_ne_nil (p : Str) : segments p ≠ [] := by
  cases p with
  | nil => simp [segments]
  | cons c cs =>
    unfold segments
    by_cases hc : c = '/'
    · simp [hc]
    · simp only [hc, if_false]
      cases segments cs <;> simp

theorem segments_cons_of_ne (c : Char) (cs s : Str) (ss : List Str) (hc : c ≠ '/')
    (h : segments cs = s :: ss) : segments (c :: cs) = (c :: s) :: ss := by
  simp [segments, hc, h]

theorem segments_append_slash (a b : Str) :
    segments (a ++ '/' :: b) = segments a ++ segments b := by
  induction a with
  | nil => simp [segments]
  | cons c cs ih =>
    by_cases hc : c = '/'
    · simp [segments, hc, ih]
    · have hne := segments_ne_nil cs
      cases hs : segments cs with
      | nil => exact absurd hs hne
      | cons s ss =>
        rw [List.cons_append, segments_cons_of_ne c _ s (ss ++ segments b) hc
          (by rw [ih, hs]; rfl), segments_cons_of_ne c cs s ss hc hs]
        rfl

theorem segments_of_plain (s : Str) (h : '/' ∉ s) : segments s = [s] := by
  induction s with
  | nil => rfl
  | cons c cs ih =>
    have hc : c ≠ '/' := fun e => h (e ▸ List.mem_cons_self _ _)
    have := ih (fun m => h (List.mem_cons_of_mem _ m))
    simp [segments, hc, this]

theorem joinSlash_append (l1 l2 : List Str) (h1 : l1 ≠ []) (h2 : l2 ≠ []) :
    joinSlash (l1 ++ l2) = joinSlash l1 ++ '/' :: joinSlash l2 := by
  induction l1 with
  | nil => exact absurd rfl h1
  | cons s t ih =>
    cases t with
    | nil =>
      cases l2 with
      | nil => exact absurd rfl h2
      | cons y ys => simp [joinSlash]
    | cons s' t' =>
      have := ih (by simp)
      simp only [List.cons_append] at this ⊢
      simp only [joinSlash, this, List.append_assoc, List.cons_append]

theorem segments_joinSlash (l : List Str) (hne : l ≠ []) (hs : ∀ s ∈ l, '/' ∉ s) :
    segments (joinSlash l) = l := by
  induction l with
  | nil => exact absurd rfl hne
  | cons s t ih =>
    cases t with
    | nil => simpa [joinSlash] using segments_of_plain s (hs s (by simp))
    | cons s' t' =>
      have h1 := ih (by simp) (fun x hx => hs x (List.mem_cons_of_mem _ hx))
      simp only [joinSlash] at h1 ⊢
      rw [segments_append_slash, segments_of_plain s (hs s (by simp)), h1]
      rfl

theorem joinSlash_ne_nil (l : List Str) (hne : l ≠ []) (hs : ∀ s ∈ l, s ≠ []) :
    joinSlash l ≠ [] := by
  cases l with
  | nil => exact absurd rfl hne
  | cons s t =>
    cases t with
    | nil => simpa [joinSlash] using hs s (by simp)
    | cons s' t' =>
      simp only [joinSlash]
      intro h
      have := List.append_eq_nil.1 h
      exact absurd this.2 (by simp)

theorem joinSlash_head (l : List Str) (hne : l ≠ []) (hs : ∀ s ∈ l, s ≠ [] ∧ '/' ∉ s) :
    (joinSlash l).head? ≠ some '/' := by
  cases l with
  | nil => exact absurd rfl hne
  | cons s t =>
    have h0 := hs s (by simp)
    cases s with
    | nil => exact absurd rfl h0.1
    | cons c cs =>
      have hc : c ≠ '/' := fun e => h0.2 (e ▸ List.mem_cons_self _ _)
      cases t with
      | nil => simpa [joinSlash] using hc
      | cons s' t' => simpa [joinSlash] using hc

/-! ## Lemmas on `pushSegment` -/

theorem pushSegment_skip (a : Bool) (stack : List Str) (seg : Str)
    (h : seg = [] ∨ seg = ['.']) : pushSegment a stack seg = stack := by
  unfold pushSegment
  rw [if_pos h]

theorem pushSegment_name (a : Bool) (stack : List Str) (seg : Str)
    (h1 : seg ≠ []) (h2 : seg ≠ ['.']) (h3 : seg ≠ ['.', '.']) :
    pushSegment a stack seg = seg :: stack := by
  unfold pushSegment
  rw [if_neg (by rintro (h | h) <;> contradiction), if_neg h3]

theorem pushSegment_dotdot_run (k : Nat) :
    pushSegment true (List.replicate k ['.', '.']) ['.', '.']
      = List.replicate (k + 1) ['.', '.'] := by
  unfold pushSegment
  rw [if_neg (by decide), if_pos rfl]
  cases k with
  | zero => rfl
  | succ k =>
    simp only [List.replicate_succ, if_true]

theorem pushSegment_valid (a : Bool) (stack : List Str) (seg : Str)
    (h : ValidStack a stack) : ValidStack a (pushSegment a stack seg) := by
  obtain ⟨names, k, rfl, hn, hk⟩ := h
  by_cases hskip : seg = [] ∨ seg = ['.']
  · rw [pushSegment_skip _ _ _ hskip]
    exact ⟨names, k, rfl, hn, hk⟩
  · have h1 : seg ≠ [] := fun e => hskip (Or.inl e)
    have h2 : seg ≠ ['.'] := fun e => hskip (Or.inr e)
    by_cases hdd : seg = ['.', '.']
    · subst hdd
      cases names with
      | nil =>
        cases a with
        | true =>
          rw [List.nil_append, pushSegment_dotdot_run]
          exact ⟨[], k + 1, rfl, by simp, by simp⟩
        | false =>
          have hk0 := hk rfl
          subst hk0
          exact ⟨[], 0, by simp [pushSegment], by simp, fun _ => rfl⟩
      | cons top rest =>
        have htop := (hn top (by simp)).2.2
        refine ⟨rest, k, ?_, fun s hs => hn s (List.mem_cons_of_mem _ hs), hk⟩
        unfold pushSegment
        rw [if_neg (by decide), if_pos rfl]
        simp only [List.cons_append]
        rw [if_neg htop]
    · rw [pushSegment_name _ _ _ h1 h2 hdd]
      refine ⟨seg :: names, k, rfl, ?_, hk⟩
      intro s hs
      rcases List.mem_cons.1 hs with rfl | hs
      · exact ⟨h1, h2, hdd⟩
      · exact hn s hs

theorem foldl_pushSegment_valid (a : Bool) (segs : List Str) (stack : List Str)
    (h : ValidStack a stack) : ValidStack a (segs.foldl (pushSegment a) stack) := by
  induction segs generalizing stack with
  | nil => exact h
  | cons seg segs ih => exact ih _ (pushSegment_valid a stack seg h)

/-- Segments without a `..` among them only add names to the stack. -/
theorem foldl_pushSegment_names (a : Bool) (segs : List Str) (stack : List Str)
    (hdd : ['.', '.'] ∉ segs) :
    segs.foldl (pushSegment a) stack
      = (segs.filter (fun s => decide (s ≠ [] ∧ s ≠ ['.']))).reverse ++ stack := by
  induction segs generalizing stack with
  | nil => rfl
  | cons seg segs ih =>
    have hseg : seg ≠ ['.', '.'] := fun e => hdd (e ▸ List.mem_cons_self _ _)
    have hrest : ['.', '.'] ∉ segs := fun m => hdd (List.mem_cons_of_mem _ m)
    by_cases hskip : seg = [] ∨ seg = ['.']
    · have hf : decide (seg ≠ [] ∧ seg ≠ ['.']) = false := by
        rcases hskip with h | h <;> simp [h]
      rw [List.foldl_cons, pushSegment_skip _ _ _ hskip, ih _ hrest, List.filter_cons, hf]
      rfl
    · have h1 : seg ≠ [] := fun e => hskip (Or.inl e)
      have h2 : seg ≠ ['.'] := fun e => hskip (Or.inr e)
      have hf : decide (seg ≠ [] ∧ seg ≠ ['.']) = true := by simp [h1, h2]
      rw [List.foldl_cons, pushSegment_name _ _ _ h1 h2 hseg, ih _ hrest, List.filter_cons, hf]
      simp

theorem foldl_pushSegment_dotdots (j k : Nat) :
    (List.replicate k ['.', '.']).foldl (pushSegment true) (List.replicate j ['.', '.'])
      = List.replicate (j + k) ['.', '.'] := by
  induction k generalizing j with
  | zero => rfl
  | succ k ih =>
    rw [List.replicate_succ, List.foldl_cons, pushSegment_dotdot_run, ih]
    congr 1
    omega

theorem foldl_pushSegment_plain (a : Bool) (names stack : List Str)
    (hn : ∀ s ∈ names, s ≠ [] ∧ s ≠ ['.'] ∧ s ≠ ['.', '.']) :
    names.reverse.foldl (pushSegment a) stack = names ++ stack := by
  induction names with
  | nil => rfl
  | cons s t ih =>
    have hs := hn s (by simp)
    rw [List.reverse_cons, List.foldl_append, ih (fun x hx => hn x (List.mem_cons_of_mem _ hx))]
    simp only [List.foldl_cons, List.foldl_nil]
    rw [pushSegment_name _ _ _ hs.1 hs.2.1 hs.2.2]
    rfl

/-- Normalising the segments of a normalised stack gives the stack back. -/
theorem foldl_pushSegment_replay (a : Bool) (stack : List Str) (h : ValidStack a stack) :
    stack.reverse.foldl (pushSegment a) [] = stack := by
  obtain ⟨names, k, rfl, hn, hk⟩ := h
  rw [List.reverse_append, List.foldl_append, List.reverse_replicate]
  have hrun : (List.replicate k ['.', '.']).foldl (pushSegment a) []
      = List.replicate k ['.', '.'] := by
    cases a with
    | true =>
      have := foldl_pushSegment_dotdots 0 k
      simpa using this
    | false =>
      have hk0 := hk rfl
      subst hk0
      rfl
  rw [hrun, foldl_pushSegment_plain a names _ hn]

/-! ## `path.join` below a normalised directory -/

theorem normalize_eq (q : Str) (abs : Bool) (hq : q ≠ [])
    (habs : q.head? = some '/' ↔ abs = true) (hr : normalizeString q (!abs) ≠ []) :
    normalize q = (if abs = true then ['/'] else [])
      ++ (normalizeString q (!abs) ++ (if q.getLast? = some '/' then ['/'] else [])) := by
  unfold normalize
  rw [if_neg hq]
  dsimp only
  have hd : decide (q.head? = some '/') = abs := by
    cases abs with
    | true => exact decide_eq_true (habs.2 rfl)
    | false => exact decide_eq_false (fun h => Bool.noConfusion (habs.1 h))
  rw [hd, if_neg hr]
  cases abs with
  | true =>
    have h1 : q.head? = some '/' := habs.2 rfl
    rw [if_pos h1]
    by_cases ht : q.getLast? = some '/'
    · simp [ht]
    · simp [ht]
  | false =>
    have h1 : ¬ q.head? = some '/' := fun h => Bool.noConfusion (habs.1 h)
    rw [if_neg h1]
    by_cases ht : q.getLast? = some '/'
    · simp [ht]
    · simp [ht]

/-- Joining a file name without a `..` segment, and with at least one name among its
segments, to a directory in normal form gives the directory, a slash, and a non-empty rest
without a `..` segment. -/
theorem join_below_normal_dir (dir fn : Str) (abs : Bool) (S : List Str)
    (hdir : dir = (if abs = true then ['/'] else []) ++ joinSlash S.reverse)
    (hS : S ≠ []) (hv : ValidStack (!abs) S) (hsl : ∀ s ∈ S, s ≠ [] ∧ '/' ∉ s)
    (hdd : ['.', '.'] ∉ segments fn) (hname : ∃ s ∈ segments fn, s ≠ [] ∧ s ≠ ['.']) :
    ∃ rest, rest ≠ [] ∧ ['.', '.'] ∉ segments rest ∧ join dir fn = dir ++ '/' :: rest := by
  have hSr : S.reverse ≠ [] := by simpa using hS
  have hslr : ∀ s ∈ S.reverse, s ≠ [] ∧ '/' ∉ s := fun s hs => hsl s (List.mem_reverse.1 hs)
  have hjne : joinSlash S.reverse ≠ [] := joinSlash_ne_nil _ hSr (fun s hs => (hslr s hs).1)
  have hfn : fn ≠ [] := by
    rintro rfl
    obtain ⟨s, hs, h1, -⟩ := hname
    simp [segments] at hs
    exact h1 hs
  have hdne : dir ≠ [] := by
    rw [hdir]
    intro h
    exact hjne (List.append_eq_nil.1 h).2
  -- the segments of the directory replay to its stack
  have hsegdir : (segments dir).foldl (pushSegment (!abs)) [] = S := by
    rw [hdir]
    cases abs with
    | true =>
      have : segments ('/' :: joinSlash S.reverse) = [] :: S.reverse := by
        have := segments_append_slash [] (joinSlash S.reverse)
        rw [List.nil_append] at this
        rw [this, segments_joinSlash _ hSr (fun s hs => (hslr s hs).2)]
        rfl
      simp only [if_true, List.singleton_append]
      rw [this, List.foldl_cons, pushSegment_skip _ _ _ (Or.inl rfl)]
      exact foldl_pushSegment_replay _ S hv
    | false =>
      simp only [Bool.false_eq_true, if_false, List.nil_append]
      rw [segments_joinSlash _ hSr (fun s hs => (hslr s hs).2)]
      exact foldl_pushSegment_replay _ S hv
  -- the stack of the joined path
  let kept := (segments fn).filter (fun s => decide (s ≠ [] ∧ s ≠ ['.']))
  have hkept : kept ≠ [] := by
    obtain ⟨s, hs, h1, h2⟩ := hname
    have : s ∈ kept := List.mem_filter.2 ⟨hs, by simp [h1, h2]⟩
    exact List.ne_nil_of_mem this
  have hkmem : ∀ s ∈ kept, s ∈ segments fn := fun s hs => (List.mem_filter.1 hs).1
  have hkgood : ∀ s ∈ kept, s ≠ [] ∧ '/' ∉ s := by
    intro s hs
    have h2 := (List.mem_filter.1 hs).2
    simp only [decide_eq_true_eq] at h2
    exact ⟨h2.1, slash_not_mem_segments fn s (hkmem s hs)⟩
  have hnorm : normalizeString (dir ++ '/' :: fn) (!abs)
      = joinSlash S.reverse ++ '/' :: joinSlash kept := by
    unfold normalizeString
    rw [segments_append_slash, List.foldl_append, hsegdir,
      foldl_pushSegment_names _ _ _ hdd, List.reverse_append, List.reverse_reverse,
      joinSlash_append _ _ hSr hkept]
  have hhead : (dir ++ '/' :: fn).head? = some '/' ↔ abs = true := by
    rw [List.head?_append_of_ne_nil _ hdne, hdir]
    cases abs with
    | true => simp
    | false =>
      simp only [Bool.false_eq_true, if_false, List.nil_append, iff_false]
      exact joinSlash_head _ hSr hslr
  have hjoin : join dir fn = normalize (dir ++ '/' :: fn) := by
    unfold join
    rw [if_neg (fun h => hdne h.1), if_neg hdne, if_neg hfn]
  have hne : normalizeString (dir ++ '/' :: fn) (!abs) ≠ [] := by
    rw [hnorm]
    intro h
    exact hjne (List.append_eq_nil.1 h).1
  rw [hjoin, normalize_eq _ abs (by simp) hhead hne, hnorm]
  have hkjne : joinSlash kept ≠ [] := joinSlash_ne_nil _ hkept (fun s hs => (hkgood s hs).1)
  have hksegs : segments (joinSlash kept) = kept :=
    segments_joinSlash _ hkept (fun s hs => (hkgood s hs).2)
  have hddk : ['.', '.'] ∉ kept := fun h => hdd (hkmem _ h)
  by_cases ht : (dir ++ '/' :: fn).getLast? = some '/'
  · refine ⟨joinSlash kept ++ ['/'], by simp, ?_, ?_⟩
    · rw [segments_append_slash, hksegs]
      intro h
      rcases List.mem_append.1 h with h | h
      · exact hddk h
      · simp [segments] at h
    · rw [if_pos ht, hdir]
      simp only [List.append_assoc, List.cons_append]
  · refine ⟨joinSlash kept, hkjne, ?_, ?_⟩
    · rw [hksegs]
      exact hddk
    · rw [if_neg ht, hdir]
      simp only [List.append_assoc, List.append_nil]

/-- The output directory is an absolute or relative path in normal form whose last segment
is `outputs`. -/
theorem outputDir_normal_form (env : Env) :
    ∃ abs S, outputDir env = (if abs = true then ['/'] else []) ++ joinSlash S.reverse ∧
      S ≠ [] ∧ ValidStack (!abs) S ∧ ∀ s ∈ S, s ≠ [] ∧ '/' ∉ s := by
  have ho : "outputs".toList = ['o', 'u', 't', 'p', 'u', 't', 's'] := rfl
  have hc1 : ¬ (env.dirname = [] ∧ "outputs".toList = []) := fun h => absurd h.2 (by decide)
  have hc2 : ¬ "outputs".toList = [] := by decide
  unfold outputDir join
  rw [if_neg hc1]
  by_cases hd : env.dirname = []
  · rw [if_pos hd]
    refine ⟨false, ["outputs".toList], by decide, by simp, ?_, ?_⟩
    · exact ⟨["outputs".toList], 0, rfl, by
        intro s hs
        have : s = "outputs".toList := by simpa using hs
        subst this
        decide, fun _ => rfl⟩
    · intro s hs
      have : s = "outputs".toList := by simpa using hs
      subst this
      decide
  · rw [if_neg hd, if_neg hc2]
    let abs := decide (env.dirname.head? = some '/')
    let q := env.dirname ++ '/' :: "outputs".toList
    have hstack : (segments q).foldl (pushSegment (!abs)) []
        = "outputs".toList :: (segments env.dirname).foldl (pushSegment (!abs)) [] := by
      show (segments (env.dirname ++ '/' :: "outputs".toList)).foldl (pushSegment (!abs)) [] = _
      rw [segments_append_slash, List.foldl_append,
        segments_of_plain "outputs".toList (by decide)]
      simp only [List.foldl_cons, List.foldl_nil]
      exact pushSegment_name _ _ "outputs".toList (by decide) (by decide) (by decide)
    have hgood : ∀ s ∈ (segments q).foldl (pushSegment (!abs)) [], s ≠ [] ∧ '/' ∉ s :=
      foldl_pushSegment_kept (!abs) (segments q) [] (by simp) (slash_not_mem_segments q)
    have hne : (segments q).foldl (pushSegment (!abs)) [] ≠ [] := by
      rw [hstack]; simp
    have hvalid : ValidStack (!abs) ((segments q).foldl (pushSegment (!abs)) []) :=
      foldl_pushSegment_valid _ _ _ ⟨[], 0, rfl, by simp, fun _ => rfl⟩
    have hhead : q.head? = some '/' ↔ abs = true := by
      show (env.dirname ++ '/' :: "outputs".toList).head? = some '/' ↔ _
      rw [List.head?_append_of_ne_nil _ hd]
      simp [abs]
    have hr : normalizeString q (!abs) ≠ [] := by
      unfold normalizeString
      exact joinSlash_ne_nil _ (by simpa using hne)
        (fun s hs => (hgood s (List.mem_reverse.1 hs)).1)
    have hlast : ¬ q.getLast? = some '/' := by
      show ¬ (env.dirname ++ '/' :: "outputs".toList).getLast? = some '/'
      rw [List.getLast?_append, ho]
      simp
    refine ⟨abs, (segments q).foldl (pushSegment (!abs)) [], ?_, hne, hvalid, hgood⟩
    rw [normalize_eq q abs (by simp [q]) hhead hr, if_neg hlast, List.append_nil]
    rfl

/-- C12, counterexample: on a POSIX host, for the file name `../server.js`, which the route
receives from the URL `/download/..%2Fserver.js`, the path checked and served is
`/app/server.js`, outside the output directory `/app/outputs`; and for the file name `.` the
path checked is the output directory itself, not a path inside it. -/
theorem download_serves_file_outside_output_dir :
    appEnv.isWindows = false ∧
    outputDir appEnv = "/app/outputs".toList ∧
    join (outputDir appEnv) "../server.js".toList = "/app/server.js".toList ∧
    insideDir (outputDir appEnv) (join (outputDir appEnv) "../server.js".toList) = false ∧
    download appEnv "../server.js".toList ["/app/server.js".toList]
      = (.download "/app/server.js".toList (some "compressed.pdf".toList),
          ["/app/server.js".toList]) ∧
    join (outputDir appEnv) ".".toList = "/app/outputs".toList ∧
    insideDir (outputDir appEnv) (join (outputDir appEnv) ".".toList) = false := by
  refine ⟨rfl, by decide, by decide, by decide, by decide, by decide, by decide⟩

/-- C12, amended: on a host other than win32, where `path.join` is the POSIX function, in
`GET /download/:filename`, for every file name that has no `..` among its slash-separated
segments and at least one segment that is a name (neither empty nor `.`), the path the route
checks and serves, `path.join(outputDir, filename)`, is the output directory, a slash and a
non-empty rest without a `..` segment: it lies inside the output directory, and the route
serves no other path. Nothing is stated for a win32 host, where `path.join` also splits at
backslashes. -/
theorem download_path_inside_output_dir (env : Env) (filename : Str)
    (_hposix : env.isWindows = false) (hdd : ['.', '.'] ∉ segments filename)
    (hname : ∃ s ∈ segments filename, s ≠ [] ∧ s ≠ ['.']) :
    insideDir (outputDir env) (join (outputDir env) filename) = true ∧
    ∀ fs p n, (download env filename fs).1 = .download p n →
      p = join (outputDir env) filename ∧ existsSync fs p = true := by
  constructor
  · obtain ⟨abs, S, hdir, hS, hv, hsl⟩ := outputDir_normal_form env
    obtain ⟨rest, hne, hnodd, hjoin⟩ :=
      join_below_normal_dir (outputDir env) filename abs S hdir hS hv hsl hdd hname
    rw [hjoin]
    unfold insideDir
    have hdrop : (outputDir env ++ '/' :: rest).drop ((outputDir env).length + 1) = rest := by
      have : outputDir env ++ '/' :: rest = (outputDir env ++ ['/']) ++ rest := by simp
      rw [this]
      exact List.drop_left' (by simp)
    have hpre : (outputDir env ++ ['/']).isPrefixOf (outputDir env ++ '/' :: rest) = true := by
      rw [List.isPrefixOf_iff_prefix]
      exact ⟨rest, by simp⟩
    rw [hdrop, hpre]
    have h1 : rest.isEmpty = false := by
      cases rest with
      | nil => exact absurd rfl hne
      | cons c cs => rfl
    have h2 : (segments rest).contains ['.', '.'] = false := by
      rw [Bool.eq_false_iff]
      intro h
      exact hnodd (List.mem_of_elem_eq_true h)
    rw [h1, h2]
    rfl
  · intro fs p n h
    unfold download at h
    dsimp only at h
    by_cases hx : existsSync fs (join (outputDir env) filename) = true
    · simp only [hx, if_true, Response.download.injEq] at h
      exact ⟨h.1.symm, h.1 ▸ hx⟩
    · simp [hx] at h

/-- C12, amended, run on the POSIX host `appEnv` and the file name `compressed-5.pdf`. -/
theorem download_path_inside_output_dir_witness :
    appEnv.isWindows = false ∧
    join (outputDir appEnv) "compressed-5.pdf".toList = "/app/outputs/compressed-5.pdf".toList ∧
    insideDir (outputDir appEnv) (join (outputDir appEnv) "compressed-5.pdf".toList) = true :=
  ⟨rfl, by decide,
    (download_path_inside_output_dir appEnv "compressed-5.pdf".toList rfl (by decide)
      ⟨"compressed-5.pdf".toList, by decide, by decide, by decide⟩).1⟩

end Server
